import Mathlib

/-!
Verification development for the in-memory books HTTP service
(`src/unnamed/part_000`).  The request handler is embedded shallowly:
the Node `req`/`res` pair becomes a pure function from a `Request`
record (method, pathname, decoded query parameters, selected headers,
raw body text, and a flag for a body-stream error) and the mutable
module state (`books`, `nextId`) to a `Response` record and the new
state.  Wall-clock reads (`Date.now()`) and the random session id are
extra parameters.  Platform functions used by the source
(`JSON.parse`, `JSON.stringify`, `parseInt`, `Array.prototype.slice`,
`String()` coercion, the bearer-token regex) are modelled explicitly
below, each next to a comment naming the construct it models.  The
response object tracks whether `res.end` has run: once it has, the
status and headers are on the wire and a later `res.setHeader` throws
`ERR_HTTP_HEADERS_SENT` instead of taking effect — which is what
happens to the timing header the `finally` block tries to attach.
-/

namespace BooksApi

/-- Model of a JavaScript value as far as the handler observes one:
the result of `JSON.parse` (or the raw string fallback), plus
`undefined` and `NaN` which arise from property access and
`parseInt`.  Numbers carry a decimal mantissa/exponent pair
(`vNum m e` denotes `m * 10 ^ e`), exact for every integer the
handler produces. -/
inductive JsVal where
  | vUndefined : JsVal
  | vNull : JsVal
  | vNaN : JsVal
  | vBool : Bool → JsVal
  | vNum : Int → Int → JsVal
  | vStr : String → JsVal
  | vArr : List JsVal → JsVal
  | vObj : List (String × JsVal) → JsVal

/-- Is this value `undefined`?  (Models `x !== undefined` checks.) -/
def JsVal.isUndef : JsVal → Bool
  | .vUndefined => true
  | _ => false

/-- JavaScript truthiness, as used by `!body`, `!body.title`,
`if (author)` in the source. -/
def jsTruthy : JsVal → Bool
  | .vUndefined => false
  | .vNull => false
  | .vNaN => false
  | .vBool b => b
  | .vNum m _ => m != 0
  | .vStr s => s != ""
  | .vArr _ => true
  | .vObj _ => true

/-- Property access `v[k]` as the handler uses it (`body.title`,
`body.author`).  On a parsed object the last binding of a duplicated
key wins, matching `JSON.parse`; on every non-object value (including
the raw-string fallback) the named properties are `undefined`. -/
def getField (v : JsVal) (k : String) : JsVal :=
  match v with
  | .vObj fs =>
    match fs.reverse.find? (fun p => p.1 = k) with
    | some p => p.2
    | none => .vUndefined
  | _ => .vUndefined

mutual

/-- String coercion `String(v)`.  Exact for strings, booleans,
`null`/`undefined`, `NaN` and integral numbers (the only values the
handler ever coerces); non-integral numbers, which the handler never
produces, are printed in mantissa/exponent form. -/
def jsToString : JsVal → String
  | .vUndefined => "undefined"
  | .vNull => "null"
  | .vNaN => "NaN"
  | .vBool b => if b then "true" else "false"
  | .vNum m e => if e = 0 then Int.repr m else Int.repr m ++ "e" ++ Int.repr e
  | .vStr s => s
  | .vObj _ => "[object Object]"
  | .vArr xs => jsToStringItems xs

/-- `Array.prototype.toString`: elements joined by commas, with
`null`/`undefined` elements rendered empty. -/
def jsToStringItems : List JsVal → String
  | [] => ""
  | v :: rest =>
    (match v with
      | .vNull => ""
      | .vUndefined => ""
      | w => jsToString w)
    ++ (if rest.isEmpty then "" else ",") ++ jsToStringItems rest

end

/-- Lower-case hex digit for string escaping. -/
def hexDigit (n : Nat) : Char :=
  if n < 10 then Char.ofNat (48 + n) else Char.ofNat (87 + (n - 10))

/-- JSON string escaping as performed by `JSON.stringify`. -/
def quoteStr (s : String) : String :=
  "\"" ++ String.join (s.toList.map fun c =>
    if c = '"' then "\\\""
    else if c = '\\' then "\\\\"
    else if c = '\n' then "\\n"
    else if c = '\r' then "\\r"
    else if c = '\t' then "\\t"
    else if c = '\x08' then "\\b"
    else if c = '\x0c' then "\\f"
    else if c.toNat < 32 then
      "\\u00" ++ String.mk [hexDigit (c.toNat / 16), hexDigit (c.toNat % 16)]
    else String.mk [c]) ++ "\""

mutual

/-- Model of `JSON.stringify` (used by `sendJSON` for the body and its
`Content-Length`).  `NaN` serializes as `null`it does in JS; a top-level
`undefined`, which the handler never stringifies, is rendered `null`. -/
def stringify : JsVal → String
  | .vUndefined => "null"
  | .vNull => "null"
  | .vNaN => "null"
  | .vBool b => if b then "true" else "false"
  | .vNum m e => if e = 0 then Int.repr m else Int.repr m ++ "e" ++ Int.repr e
  | .vStr s => quoteStr s
  | .vArr xs => "[" ++ stringifyItems xs ++ "]"
  | .vObj fs => "\x7b" ++ stringifyMembers fs ++ "\x7d"

/-- Array elements, comma separated (`undefined` becomes `null`). -/
def stringifyItems : List JsVal → String
  | [] => ""
  | v :: rest => stringify v ++ (if rest.isEmpty then "" else ",") ++ stringifyItems rest

/-- Object members, comma separated; members whose value is
`undefined` are omitted, as `JSON.stringify` does. -/
def stringifyMembers : List (String × JsVal) → String
  | [] => ""
  | (k, v) :: rest =>
    if v.isUndef then stringifyMembers rest
    else
      let r := stringifyMembers rest
      quoteStr k ++ ":" ++ stringify v ++ (if r = "" then "" else ",") ++ r

end

/-- The four whitespace characters of the JSON grammar. -/
def jsonWs (c : Char) : Bool :=
  c == ' ' || c == '\t' || c == '\n' || c == '\r'

/-- Hexadecimal digit value, for `\uXXXX` escapes. -/
def hexVal? (c : Char) : Option Nat :=
  if '0' ≤ c ∧ c ≤ '9' then some (c.toNat - 48)
  else if 'a' ≤ c ∧ c ≤ 'f' then some (c.toNat - 87)
  else if 'A' ≤ c ∧ c ≤ 'F' then some (c.toNat - 55)
  else none

/-- JSON string body (after the opening quote): returns the decoded
characters and the remainder after the closing quote.  Unescaped
control characters and unknown escapes are rejected, per the JSON
grammar that `JSON.parse` implements. -/
def parseStrChars : List Char → Option (List Char × List Char)
  | [] => none
  | '"' :: r => some ([], r)
  | '\\' :: r =>
    match r with
    | '"' :: r2 => (parseStrChars r2).map fun p => ('"' :: p.1, p.2)
    | '\\' :: r2 => (parseStrChars r2).map fun p => ('\\' :: p.1, p.2)
    | '/' :: r2 => (parseStrChars r2).map fun p => ('/' :: p.1, p.2)
    | 'b' :: r2 => (parseStrChars r2).map fun p => ('\x08' :: p.1, p.2)
    | 'f' :: r2 => (parseStrChars r2).map fun p => ('\x0c' :: p.1, p.2)
    | 'n' :: r2 => (parseStrChars r2).map fun p => ('\n' :: p.1, p.2)
    | 'r' :: r2 => (parseStrChars r2).map fun p => ('\r' :: p.1, p.2)
    | 't' :: r2 => (parseStrChars r2).map fun p => ('\t' :: p.1, p.2)
    | 'u' :: a :: b :: c :: d :: r2 =>
      match hexVal? a, hexVal? b, hexVal? c, hexVal? d with
      | some ha, some hb, some hc, some hd =>
        (parseStrChars r2).map fun p =>
          (Char.ofNat (((ha * 16 + hb) * 16 + hc) * 16 + hd) :: p.1, p.2)
      | _, _, _, _ => none
    | _ => none
  | c :: r =>
    if c.toNat < 32 then none
    else (parseStrChars r).map fun p => (c :: p.1, p.2)

/-- Numeric value of a digit run. -/
def digitsVal (ds : List Char) : Nat :=
  ds.foldl (fun a c => a * 10 + (c.toNat - 48)) 0

/-- JSON number: `-? (0 | [1-9][0-9]*) (. [0-9]+)? ([eE][+-]?[0-9]+)?`.
Returns the mantissa/exponent pair and the remainder. -/
def parseNum (cs : List Char) : Option ((Int × Int) × List Char) :=
  let (sign, cs1) : Int × List Char :=
    match cs with
    | '-' :: r => (-1, r)
    | _ => (1, cs)
  match cs1 with
  | '0' :: r => parseNumTail sign ['0'] r
  | c :: r =>
    if '1' ≤ c ∧ c ≤ '9' then
      let ds := r.takeWhile Char.isDigit
      parseNumTail sign (c :: ds) (r.drop ds.length)
    else none
  | [] => none
where
  /-- Optional fraction and exponent after the integer digits. -/
  parseNumTail (sign : Int) (intDs : List Char) (r : List Char) :
      Option ((Int × Int) × List Char) :=
    let (fracDs, r2) : List Char × List Char :=
      match r with
      | '.' :: r1 =>
        let ds := r1.takeWhile Char.isDigit
        if ds.isEmpty then ([], r) else (ds, r1.drop ds.length)
      | _ => ([], r)
    -- a bare "1." is not valid JSON: the fraction must have digits, and
    -- when it does not we leave the dot unconsumed so the caller fails
    if r.head? = some '.' ∧ fracDs.isEmpty then none
    else
      let (expv, r3) : Option Int × List Char :=
        match r2 with
        | 'e' :: r1 => parseExp r1
        | 'E' :: r1 => parseExp r1
        | _ => (some 0, r2)
      match expv with
      | none => none
      | some ex =>
        some ((sign * (digitsVal (intDs ++ fracDs) : Int),
               ex - (fracDs.length : Int)), r3)
  /-- Exponent part after `e`/`E`. -/
  parseExp (r : List Char) : Option Int × List Char :=
    let (esign, r1) : Int × List Char :=
      match r with
      | '+' :: t => (1, t)
      | '-' :: t => (-1, t)
      | _ => (1, r)
    let ds := r1.takeWhile Char.isDigit
    if ds.isEmpty then (none, r)
    else (some (esign * (digitsVal ds : Int)), r1.drop ds.length)

mutual

/-- Recursive-descent JSON value parser (fueled; the fuel is a bound
on nesting and is always sufficient at `String.length + 1`). -/
def parseVal : Nat → List Char → Option (JsVal × List Char)
  | 0, _ => none
  | fuel + 1, cs =>
    match cs.dropWhile jsonWs with
    | 'n' :: 'u' :: 'l' :: 'l' :: r => some (.vNull, r)
    | 't' :: 'r' :: 'u' :: 'e' :: r => some (.vBool true, r)
    | 'f' :: 'a' :: 'l' :: 's' :: 'e' :: r => some (.vBool false, r)
    | '"' :: r => (parseStrChars r).map fun p => (.vStr (String.mk p.1), p.2)
    | '[' :: r =>
      match r.dropWhile jsonWs with
      | ']' :: r2 => some (.vArr [], r2)
      | r2 => (parseItems fuel r2).map fun p => (.vArr p.1, p.2)
    | '\x7b' :: r =>
      match r.dropWhile jsonWs with
      | '\x7d' :: r2 => some (.vObj [], r2)
      | r2 => (parseMembers fuel r2).map fun p => (.vObj p.1, p.2)
    | rest =>
      (parseNum rest).map fun p => (.vNum p.1.1 p.1.2, p.2)

/-- Array items after `[`, separated by commas, ended by `]`. -/
def parseItems : Nat → List Char → Option (List JsVal × List Char)
  | 0, _ => none
  | fuel + 1, cs =>
    match parseVal fuel cs with
    | none => none
    | some (v, r) =>
      match r.dropWhile jsonWs with
      | ',' :: r2 => (parseItems fuel r2).map fun p => (v :: p.1, p.2)
      | ']' :: r2 => some ([v], r2)
      | _ => none

/-- Object members after the opening brace, `"key": value` pairs
separated by commas, ended by the closing brace. -/
def parseMembers : Nat → List Char → Option (List (String × JsVal) × List Char)
  | 0, _ => none
  | fuel + 1, cs =>
    match cs.dropWhile jsonWs with
    | '"' :: r =>
      match parseStrChars r with
      | none => none
      | some (ks, r1) =>
        match r1.dropWhile jsonWs with
        | ':' :: r2 =>
          match parseVal fuel r2 with
          | none => none
          | some (v, r3) =>
            match r3.dropWhile jsonWs with
            | ',' :: r4 => (parseMembers fuel r4).map fun p => ((String.mk ks, v) :: p.1, p.2)
            | '\x7d' :: r4 => some ([(String.mk ks, v)], r4)
            | _ => none
        | _ => none
    | _ => none

end

/-- Model of `JSON.parse`: `none` exactly when parsing throws (the
source then falls back to the raw string). -/
def parseJson (s : String) : Option JsVal :=
  match parseVal (s.length + 1) s.toList with
  | some (v, r) => if r.dropWhile jsonWs = [] then some v else none
  | none => none

/-- The whitespace class of the JavaScript `\s` regex escape and of
the `parseInt` leading trim (ASCII whitespace, NBSP, the Unicode
space separators, line/paragraph separators, and the BOM). -/
def jsSpace (c : Char) : Bool :=
  c == ' ' || c == '\t' || c == '\n' || c == '\x0b' || c == '\x0c' || c == '\r' ||
  c == '\u00A0' || c == '\u1680' || ('\u2000' ≤ c && c ≤ '\u200A') ||
  c == '\u2028' || c == '\u2029' || c == '\u202F' || c == '\u205F' ||
  c == '\u3000' || c == '\uFEFF'

/-- JavaScript line terminators, which the `.` of a regex never
matches. -/
def lineTerm (c : Char) : Bool :=
  c == '\n' || c == '\r' || c == '\u2028' || c == '\u2029'

/-- A JavaScript number as the pagination code manipulates it: an
integer or `NaN` (`none`).  `parseInt` results, and sums/products of
them, are always of this shape. -/
abbrev JsNum := Option Int

/-- Model of `parseInt(s, 10)`: trim leading whitespace, optional
sign, then the longest run of decimal digits; `NaN` when that run is
empty. -/
def jsParseInt (s : String) : JsNum :=
  let cs := s.toList.dropWhile jsSpace
  let (sign, cs1) : Int × List Char :=
    match cs with
    | '-' :: r => (-1, r)
    | '+' :: r => (1, r)
    | _ => (1, cs)
  let ds := cs1.takeWhile Char.isDigit
  if ds.isEmpty then none else some (sign * (digitsVal ds : Int))

/-- Addition where `NaN` absorbs, as for JS numbers. -/
def jsAdd : JsNum → JsNum → JsNum
  | some a, some b => some (a + b)
  | _, _ => none

/-- Subtraction where `NaN` absorbs. -/
def jsSub : JsNum → JsNum → JsNum
  | some a, some b => some (a - b)
  | _, _ => none

/-- Multiplication where `NaN` absorbs (in JS even `0 * NaN` is
`NaN`). -/
def jsMul : JsNum → JsNum → JsNum
  | some a, some b => some (a * b)
  | _, _ => none

/-- A `JsNum` as a value in a response payload (`NaN` survives until
`JSON.stringify` renders it `null`). -/
def jsNumToVal : JsNum → JsVal
  | some n => .vNum n 0
  | none => .vNaN

/-- The index conversion of `Array.prototype.slice`
(ToIntegerOrInfinity + relative-to-end + clamping): `NaN` becomes 0,
negative indices count from the end, and everything is clamped to the
array length. -/
def sliceIndex (len : Nat) (v : JsNum) : Nat :=
  match v with
  | none => 0
  | some i => if i < 0 then ((len : Int) + i).toNat else min i.toNat len

/-- Model of `list.slice(s, e)` on the books list. -/
def jsSlice {α : Type} (l : List α) (s e : JsNum) : List α :=
  (l.take (sliceIndex l.length e)).drop (sliceIndex l.length s)

/-- Model of `hay.includes(needle)` on strings. -/
def containsSub (hay needle : String) : Bool :=
  decide (List.IsInfix needle.toList hay.toList)

/-- `s.startsWith(pre)` (character-list form, so that it computes by
unfolding). -/
def strStartsWith (s pre : String) : Bool :=
  pre.toList.isPrefixOf s.toList

/-- `s.toLowerCase()` (ASCII case mapping, as `Char.toLower` gives;
the records and filters of this service are ASCII). -/
def strToLower (s : String) : String :=
  String.mk (s.toList.map Char.toLower)

-- --- In-memory data store (ephemeral) ---

/-- A record of the books collection. -/
structure Book where
  id : Int
  title : String
  author : String
deriving DecidableEq, Repr

/-- The module-level mutable state: the ordered collection and the
auto-increment counter. -/
structure St where
  books : List Book
  nextId : Int
deriving DecidableEq, Repr

/-- The three seed records and `nextId = 4`. -/
def initSt : St :=
  { books := [
      { id := 1, title := "Eloquent JS", author := "Marijn Haverbeke" },
      { id := 2, title := "You Don\x27t Know JS", author := "Kyle Simpson" },
      { id := 3, title := "Clean Code", author := "Robert C. Martin" }],
    nextId := 4 }

/-- A book as it appears in a JSON payload. -/
def bookToJs (b : Book) : JsVal :=
  .vObj [("id", .vNum b.id 0), ("title", .vStr b.title), ("author", .vStr b.author)]

-- --- Response headers ---

/-- Response headers: a name-to-value map kept in insertion order,
as Node's `res.setHeader`/object semantics give. -/
abbrev Headers := List (String × String)

/-- `res.setHeader(k, v)`: overwrite the binding in place, or append a
new one. -/
def setH : Headers → String → String → Headers
  | [], k, v => [(k, v)]
  | p :: t, k, v => if p.1 = k then (k, v) :: t else p :: setH t k v

/-- Read a response header back. -/
def getH (hs : Headers) (k : String) : Option String :=
  (hs.find? (fun p => p.1 = k)).map (fun p => p.2)

/-- The three CORS headers set unconditionally at the top of the
handler. -/
def corsHeaders : Headers :=
  [("Access-Control-Allow-Origin", "*"),
   ("Access-Control-Allow-Methods", "GET,POST,PUT,PATCH,DELETE,OPTIONS"),
   ("Access-Control-Allow-Headers", "Content-Type,Authorization")]

/-- The response: status code, headers, and the JSON payload (kept
structured; `stringify` gives the wire body, whose byte count feeds
`Content-Length`).  `ended` records that `res.end` has run: at that
point the status and headers are flushed to the wire. -/
structure Response where
  status : Nat
  headers : Headers
  body : JsVal
  ended : Bool

/-- `res.setHeader(k, v)` on a response object: before `res.end` it
updates the header map; after `res.end` the headers are already on
the wire and Node throws `ERR_HTTP_HEADERS_SENT`, leaving the sent
response unchanged (the `.error` case). -/
def resSetHeader (r : Response) (k v : String) : Except Unit Response :=
  if r.ended then .error ()
  else .ok { r with headers := setH r.headers k v }

/-- `sendJSON(res, status, payload)`: set `Content-Type` and
`Content-Length` (UTF-8 byte length of the serialized payload) and
the status code, then `res.end(body)` — which flushes status and
headers and ends the response. -/
def sendJSON (hs : Headers) (status : Nat) (payload : JsVal) : Response :=
  let h1 := setH hs "Content-Type" "application/json; charset=utf-8"
  let h2 := setH h1 "Content-Length" (toString (stringify payload).utf8ByteSize)
  { status := status, headers := h2, body := payload, ended := true }

/-- The error payloads `{ error: msg }`. -/
def errObj (s : String) : JsVal := .vObj [("error", .vStr s)]

-- --- Request parsing helpers ---

/-- Replace-or-append on the cookies object (later bindings of the
same name overwrite, insertion order preserved). -/
def objSet (out : List (String × String)) (k v : String) : List (String × String) :=
  if out.any (fun p => p.1 = k) then
    out.map (fun p => if p.1 = k then (k, v) else p)
  else out ++ [(k, v)]

/-- `parseCookies`: split the `Cookie` header on `;`, each part on
`=`; skip parts whose pre-trim key is empty; trim key and value.  A
missing (or falsy empty) header gives the empty object. -/
def parseCookies (h : Option String) : List (String × String) :=
  match h with
  | none => []
  | some s =>
    if s = "" then []
    else
      (s.splitOn ";").foldl (fun out part =>
        match part.splitOn "=" with
        | [] => out
        | k :: rest =>
          if k = "" then out
          else objSet out k.trim ((rest.head?.getD "").trim)) []

/-- The fixed shared secret for protected routes. -/
def DEMO_BEARER : String := "secret-token-123"

/-- Model of `auth.match(/^Bearer\s+(.+)$/i)`: the captured token, or
`none` when the regex does not match.  `\s+` is greedy and backtracks
by at most one character (only when nothing is left for `(.+)`), and
`.` matches no line terminator. -/
def parseBearer (auth : String) : Option String :=
  let cs := auth.toList
  if (cs.take 6).map Char.toLower = ['b', 'e', 'a', 'r', 'e', 'r'] then
    let rest := cs.drop 6
    let ws := rest.takeWhile jsSpace
    let tk := rest.dropWhile jsSpace
    if ws.isEmpty then none
    else if ¬tk.isEmpty then
      if tk.any lineTerm then none else some (String.mk tk)
    else
      match ws.drop (ws.length - 1) with
      | [c] => if 2 ≤ ws.length ∧ ¬lineTerm c then some (String.mk [c]) else none
      | _ => none
  else none

-- --- Requests ---

/-- The request methods the handler distinguishes. -/
inductive Method where
  | GET | POST | PUT | PATCH | DELETE | OPTIONS
  | other : String → Method
deriving DecidableEq, Repr

/-- An incoming request, after the runtime has split the URL:
method, pathname, the decoded query parameters in order, the
`Authorization` and `Cookie` headers when present, the raw body text,
and whether the body stream errors (the one event that makes the
handler throw). -/
structure Request where
  method : Method
  pathname : String
  query : List (String × String)
  authorization : Option String
  cookie : Option String
  body : String
  bodyErr : Bool

/-- `searchParams.get(k)`: first binding, or null. -/
def getParam (q : List (String × String)) (k : String) : Option String :=
  (q.find? (fun p => p.1 = k)).map (fun p => p.2)

/-- The `x || d` defaulting applied to `searchParams.get` results
(null and the empty string both fall back). -/
def paramOr (v : Option String) (d : String) : String :=
  match v with
  | none => d
  | some s => if s = "" then d else s

/-- Model of `pathname.match(/^\/books(?:\/(\d+))?$/)`: `none` when
the regex fails, `some none` for exactly `/books`, and
`some (some ds)` for `/books/<digits>`. -/
def bookMatch (p : String) : Option (Option String) :=
  if p = "/books" then some none
  else if strStartsWith p "/books/" then
    let rest := String.mk (p.toList.drop 7)
    if rest ≠ "" ∧ rest.toList.all Char.isDigit then some (some rest) else none
  else none

/-- The id capture when present (`bookMatch && bookMatch[1]`). -/
def idArgOf (p : String) : Option String :=
  match bookMatch p with
  | some (some ds) => some ds
  | _ => none

/-- `Number(ds)` on a captured digit string. -/
def digitsToInt (ds : String) : Int := (digitsVal ds.toList : Int)

/-- The token of the request (`req.headers.authorization || ''`
through the bearer regex). -/
def authTokenOf (req : Request) : Option String :=
  parseBearer (req.authorization.getD "")

/-- The resolved body value when the stream does not error: an empty
body gives `null`, a parseable body its JSON value, and anything else
the raw string (`readBody`, non-error path). -/
def bodyValOf (req : Request) : JsVal :=
  if req.body = "" then .vNull
  else match parseJson req.body with
       | some v => v
       | none => .vStr req.body

/-- The promise: rejected on a stream error, else the body value. -/
def readBody (req : Request) : Except Unit JsVal :=
  if req.bodyErr then .error () else .ok (bodyValOf req)

-- --- Store mutation helpers ---

/-- `books.findIndex(b => b.id === id)` followed by `books[idx] = nb`:
replace the first record with the given id, or `none` when the scan
fails (the PUT branch then answers 404). -/
def replaceFirst (bs : List Book) (id : Int) (nb : Book) : Option (List Book) :=
  match bs with
  | [] => none
  | b :: t => if b.id = id then some (nb :: t) else (replaceFirst t id nb).map (b :: ·)

/-- The in-place field updates of the PATCH branch: each of `title`
and `author` is overwritten (string-coerced) only when supplied. -/
def applyPatch (b : Book) (body : JsVal) : Book :=
  { b with
    title := if ¬(getField body "title").isUndef then jsToString (getField body "title") else b.title,
    author := if ¬(getField body "author").isUndef then jsToString (getField body "author") else b.author }

/-- `books.find(b => b.id === id)` followed by in-place mutation:
returns the updated list and the updated record. -/
def patchFirst (bs : List Book) (id : Int) (body : JsVal) : Option (List Book × Book) :=
  match bs with
  | [] => none
  | b :: t =>
    if b.id = id then
      let b' := applyPatch b body
      some (b' :: t, b')
    else (patchFirst t id body).map (fun p => (b :: p.1, p.2))

/-- `books.findIndex` followed by `books.splice(idx, 1)[0]`: the
removed record and the remaining list. -/
def removeFirst (bs : List Book) (id : Int) : Option (Book × List Book) :=
  match bs with
  | [] => none
  | b :: t => if b.id = id then some (b, t) else (removeFirst t id).map (fun p => (p.1, b :: p.2))

-- --- The routed branches ---

/-- GET `/books`, the `author` filter step: `books.slice()` then the
case-insensitive substring filter when the `author` parameter is
truthy. -/
def filteredBooks (q : List (String × String)) (st : St) : List Book :=
  match getParam q "author" with
  | some a => if a = "" then st.books else st.books.filter (fun b => containsSub (strToLower b.author) (strToLower a))
  | none => st.books

/-- GET `/books` (continued): pagination over the filtered list,
response `{ page, limit, total, data }`. -/
def listBooks (q : List (String × String)) (st : St) : Response :=
  let limit := jsParseInt (paramOr (getParam q "limit") "10")
  let page := jsParseInt (paramOr (getParam q "page") "1")
  let list := filteredBooks q st
  let startIdx := jsMul (jsSub page (some 1)) limit
  let pageItems := jsSlice list startIdx (jsAdd startIdx limit)
  sendJSON corsHeaders 200 (.vObj
    [("page", jsNumToVal page), ("limit", jsNumToVal limit),
     ("total", .vNum (list.length : Int) 0), ("data", .vArr (pageItems.map bookToJs))])

/-- GET `/books/:id`: linear scan; 404 when absent, otherwise the
record together with the echoed request cookies and the
`X-Server-Note` header. -/
def getOneBook (ds : String) (cookies : List (String × String)) (st : St) : Response :=
  let id := digitsToInt ds
  match st.books.find? (fun b => b.id == id) with
  | none => sendJSON corsHeaders 404 (errObj "Not found")
  | some book =>
    let hs := setH corsHeaders "X-Server-Note" "served-by-node-http"
    sendJSON hs 200 (.vObj [("data", bookToJs book),
      ("cookies", .vObj (cookies.map fun p => (p.1, JsVal.vStr p.2)))])

/-- POST `/books`: presence check on `title`/`author` (JS truthiness),
then create with the next id, push, set the session cookie, 201. -/
def postBooks (req : Request) (rand : String) (st : St) : Except Unit (Response × St) :=
  match readBody req with
  | .error e => .error e
  | .ok body =>
    if ¬jsTruthy body ∨ ¬jsTruthy (getField body "title") ∨ ¬jsTruthy (getField body "author") then
      .ok (sendJSON corsHeaders 400 (errObj "Missing title or author in request body"), st)
    else
      let book : Book :=
        { id := st.nextId,
          title := jsToString (getField body "title"),
          author := jsToString (getField body "author") }
      let hs := setH corsHeaders "Set-Cookie" ("sessionId=" ++ rand ++ "; HttpOnly; Path=/")
      .ok (sendJSON hs 201 (.vObj [("data", bookToJs book)]),
           { books := st.books ++ [book], nextId := st.nextId + 1 })

/-- PUT `/books/:id`: presence check first (so a bad body 400s even
for an unknown id), then full replace keeping the path id. -/
def putBook (ds : String) (req : Request) (st : St) : Except Unit (Response × St) :=
  let id := digitsToInt ds
  match readBody req with
  | .error e => .error e
  | .ok body =>
    if ¬jsTruthy body ∨ ¬jsTruthy (getField body "title") ∨ ¬jsTruthy (getField body "author") then
      .ok (sendJSON corsHeaders 400 (errObj "Missing title or author in request body"), st)
    else
      let nb : Book :=
        { id := id,
          title := jsToString (getField body "title"),
          author := jsToString (getField body "author") }
      match replaceFirst st.books id nb with
      | none => .ok (sendJSON corsHeaders 404 (errObj "Not found"), st)
      | some books' => .ok (sendJSON corsHeaders 200 (.vObj [("data", bookToJs nb)]),
                            { books := books', nextId := st.nextId })

/-- PATCH `/books/:id`: non-empty body check (truthiness of the read
body), then update only the supplied fields of the first match. -/
def patchBook (ds : String) (req : Request) (st : St) : Except Unit (Response × St) :=
  let id := digitsToInt ds
  match readBody req with
  | .error e => .error e
  | .ok body =>
    if ¬jsTruthy body then
      .ok (sendJSON corsHeaders 400 (errObj "Missing body"), st)
    else
      match patchFirst st.books id body with
      | none => .ok (sendJSON corsHeaders 404 (errObj "Not found"), st)
      | some (books', b') => .ok (sendJSON corsHeaders 200 (.vObj [("data", bookToJs b')]),
                                  { books := books', nextId := st.nextId })

/-- DELETE `/books/:id`: splice out the first match and return it. -/
def deleteBook (ds : String) (st : St) : Except Unit (Response × St) :=
  let id := digitsToInt ds
  match removeFirst st.books id with
  | none => .ok (sendJSON corsHeaders 404 (errObj "Not found"), st)
  | some (removed, books') => .ok (sendJSON corsHeaders 200 (.vObj [("data", bookToJs removed)]),
                                   { books := books', nextId := st.nextId })

/-- `['POST','PUT','PATCH','DELETE'].includes(req.method)`. -/
def isMutating (m : Method) : Bool :=
  [Method.POST, Method.PUT, Method.PATCH, Method.DELETE].contains m

/-- The part of the route chain after the two GET routes: the
authorization gate for mutating methods on `/books*` paths, then the
POST/PUT/PATCH/DELETE routes, then the 404 fallback. -/
def routeMut (req : Request) (rand : String) (st : St) : Except Unit (Response × St) :=
  if isMutating req.method ∧ strStartsWith req.pathname "/books" ∧ authTokenOf req ≠ some DEMO_BEARER then
    .ok (sendJSON (setH corsHeaders "WWW-Authenticate" "Bearer realm=\"simple-demo\"") 401
          (errObj "Unauthorized - invalid or missing bearer token"), st)
  else if req.method = .POST ∧ req.pathname = "/books" then postBooks req rand st
  else
    match req.method, idArgOf req.pathname with
    | .PUT, some ds => putBook ds req st
    | .PATCH, some ds => patchBook ds req st
    | .DELETE, some ds => deleteBook ds st
    | _, _ => .ok (sendJSON corsHeaders 404 (errObj "Route not found"), st)

/-- The `try` block: the route chain in source order.  A GET whose
path captures no id falls through the GET routes into the common
tail, exactly as the sequential `if` chain does. -/
def routeTry (req : Request) (cookies : List (String × String)) (rand : String) (st : St) :
    Except Unit (Response × St) :=
  if req.method = .GET ∧ req.pathname = "/books" then .ok (listBooks req.query st, st)
  else if req.method = .GET then
    match idArgOf req.pathname with
    | some ds => .ok (getOneBook ds cookies st, st)
    | none => routeMut req rand st
  else routeMut req rand st

/-- The whole request handler.  `t0` and `t1` are the two `Date.now()`
readings (request start, `finally` block); `rand` is the hex session
id drawn on create.  The OPTIONS preflight answers 204 (`res.end`)
before the `try`/`catch`/`finally`; a thrown route (erroring body
stream) is caught and answered 500 with the state untouched.  The
`finally` block then calls `res.setHeader('X-Response-Time-ms', ...)`
— but every route path has already ended the response inside
`sendJSON`, so the call throws `ERR_HTTP_HEADERS_SENT` and the
response that was sent is unchanged. -/
def handle (t0 t1 : Nat) (rand : String) (req : Request) (st : St) : Response × St :=
  if req.method = .OPTIONS then
    ({ status := 204, headers := corsHeaders, body := .vUndefined, ended := true }, st)
  else
    let pr :=
      match routeTry req (parseCookies req.cookie) rand st with
      | .ok p => p
      | .error _ => (sendJSON corsHeaders 500 (errObj "Internal Server Error"), st)
    match resSetHeader pr.1 "X-Response-Time-ms" (Int.repr ((t1 : Int) - (t0 : Int))) with
    | .ok r2 => (r2, pr.2)
    | .error _ => pr

-- --- Reachability ---

/-- One request-handling step on the shared state. -/
def StepSt (st st' : St) : Prop :=
  ∃ t0 t1 rand req, (handle t0 t1 rand req st).2 = st'

/-- Any number of steps. -/
def Steps : St → St → Prop := Relation.ReflTransGen StepSt

/-- States reachable from the seeded initial state by request
handling. -/
inductive Reachable : St → Prop where
  | seed : Reachable initSt
  | next : ∀ {st st'}, Reachable st → StepSt st st' → Reachable st'

/-- A POST request handled from `st` succeeds with 201, produces
`st'`, and the record in its `data` payload carries id `a`. -/
def PostCreates (st st' : St) (a : Int) : Prop :=
  ∃ t0 t1 rand req b, req.method = Method.POST ∧
    (handle t0 t1 rand req st).1.status = 201 ∧
    (handle t0 t1 rand req st).2 = st' ∧
    getField (handle t0 t1 rand req st).1.body "data" = bookToJs b ∧ b.id = a

/-- A DELETE request handled from `st` succeeds with 200, produces
`st'`, and the removed record in its `data` payload carries id `d`. -/
def DeleteRemoves (st st' : St) (d : Int) : Prop :=
  ∃ t0 t1 rand req b, req.method = Method.DELETE ∧
    (handle t0 t1 rand req st).1.status = 200 ∧
    (handle t0 t1 rand req st).2 = st' ∧
    getField (handle t0 t1 rand req st).1.body "data" = bookToJs b ∧ b.id = d

-- --- General lemmas about the embedding ---

/-- Reading a header off a cons. -/
theorem getH_cons (x : String × String) (l : Headers) (k : String) :
    getH (x :: l) k = if x.1 = k then some x.2 else getH l k := by
  by_cases h : x.1 = k <;> simp [getH, List.find?_cons, h]

/-- Setting a header then reading it back gives the set value. -/
theorem getH_setH_self (hs : Headers) (k v : String) : getH (setH hs k v) k = some v := by
  induction hs with
  | nil => simp [setH, getH_cons, getH]
  | cons p t ih =>
    by_cases hp : p.1 = k
    · simp [setH, hp, getH_cons]
    · simp [setH, hp, getH_cons, ih]

/-- Setting a header leaves the other header names unchanged. -/
theorem getH_setH_ne (hs : Headers) (k v k' : String) (h : k' ≠ k) :
    getH (setH hs k v) k' = getH hs k' := by
  have hk : ¬((k : String) = k') := fun hh => h hh.symm
  induction hs with
  | nil => simp [setH, getH_cons, getH, hk]
  | cons p t ih =>
    by_cases hp : p.1 = k
    · have hp' : ¬(p.1 = k') := by rw [hp]; exact hk
      simp [setH, hp, getH_cons, hk, hp']
    · simp [setH, hp, getH_cons, ih]

/-- A request whose body stream does not error resolves to the body
value. -/
theorem readBody_noErr (req : Request) (h : req.bodyErr = false) :
    readBody req = .ok (bodyValOf req) := by
  simp [readBody, h]

/-- Every response the mutating route chain produces has been ended
by `sendJSON`, and none of its headers is the timing header. -/
theorem routeMut_sent (req : Request) (rand : String) (st : St) (pr : Response × St)
    (h : routeMut req rand st = .ok pr) :
    pr.1.ended = true ∧ getH pr.1.headers "X-Response-Time-ms" = none := by
  unfold routeMut at h
  split at h
  · cases Except.ok.inj h
    exact ⟨rfl, rfl⟩
  · split at h
    · unfold postBooks at h
      split at h
      · simp at h
      · split at h
        · cases Except.ok.inj h
          exact ⟨rfl, rfl⟩
        · cases Except.ok.inj h
          exact ⟨rfl, rfl⟩
    · split at h
      · unfold putBook at h
        dsimp only [] at h
        split at h
        · simp at h
        · split at h
          · cases Except.ok.inj h
            exact ⟨rfl, rfl⟩
          · split at h
            · cases Except.ok.inj h
              exact ⟨rfl, rfl⟩
            · cases Except.ok.inj h
              exact ⟨rfl, rfl⟩
      · unfold patchBook at h
        dsimp only [] at h
        split at h
        · simp at h
        · split at h
          · cases Except.ok.inj h
            exact ⟨rfl, rfl⟩
          · split at h
            · cases Except.ok.inj h
              exact ⟨rfl, rfl⟩
            · cases Except.ok.inj h
              exact ⟨rfl, rfl⟩
      · unfold deleteBook at h
        dsimp only [] at h
        split at h
        · cases Except.ok.inj h
          exact ⟨rfl, rfl⟩
        · cases Except.ok.inj h
          exact ⟨rfl, rfl⟩
      · cases Except.ok.inj h
        exact ⟨rfl, rfl⟩

/-- Every response the route chain produces has been ended by
`sendJSON`, and none carries the timing header. -/
theorem routeTry_sent (req : Request) (cookies : List (String × String)) (rand : String)
    (st : St) (pr : Response × St)
    (h : routeTry req cookies rand st = .ok pr) :
    pr.1.ended = true ∧ getH pr.1.headers "X-Response-Time-ms" = none := by
  unfold routeTry at h
  split at h
  · cases Except.ok.inj h
    exact ⟨rfl, rfl⟩
  · split at h
    · split at h
      · cases Except.ok.inj h
        constructor <;> (unfold getOneBook; dsimp only []; split <;> rfl)
      · exact routeMut_sent _ _ _ _ h
    · exact routeMut_sent _ _ _ _ h

/-- Lifting a route result through `handle`: the route has already
ended the response, so the finally block's `res.setHeader` throws and
the sent response and resulting state pass through unchanged. -/
theorem handle_ok (t0 t1 : Nat) (rand : String) (req : Request) (st : St)
    (r : Response) (st' : St) (hm : req.method ≠ Method.OPTIONS)
    (h : routeTry req (parseCookies req.cookie) rand st = .ok (r, st')) :
    (handle t0 t1 rand req st).1.status = r.status ∧
    (handle t0 t1 rand req st).1.body = r.body ∧
    (handle t0 t1 rand req st).2 = st' ∧
    (handle t0 t1 rand req st).1.headers = r.headers := by
  have hsent : r.ended = true := (routeTry_sent req (parseCookies req.cookie) rand st (r, st') h).1
  simp only [handle, if_neg hm, h, resSetHeader, hsent, if_true]
  exact ⟨by trivial, by trivial, by trivial, by trivial⟩

-- --- C1: the X-Response-Time-ms header ---

/-- C1: no response of the handler ever carries an
`X-Response-Time-ms` header.  Every route path — success, 400, 401,
404, and the caught-exception 500 path — ends the response inside
`sendJSON` before the `finally` block runs, so the `res.setHeader` in
the `finally` throws `ERR_HTTP_HEADERS_SENT` and the sent response is
unchanged; the OPTIONS preflight returns before the `try`/`finally`
altogether.  This refutes the claim, and the stated intent of the
code, on every input. -/
theorem c1_no_timing_header (t0 t1 : Nat) (rand : String) (req : Request) (st : St) :
    getH (handle t0 t1 rand req st).1.headers "X-Response-Time-ms" = none ∧
    (handle t0 t1 rand req st).1.ended = true := by
  by_cases hm : req.method = Method.OPTIONS
  · refine ⟨?_, ?_⟩
    · simp only [handle, if_pos hm]
      rfl
    · simp [handle, hm]
  · rcases hrt : routeTry req (parseCookies req.cookie) rand st with e | pr
    · refine ⟨?_, ?_⟩
      · simp only [handle, if_neg hm, hrt]
        rfl
      · simp [handle, hm, hrt, resSetHeader, sendJSON]
    · obtain ⟨hend, hnone⟩ := routeTry_sent req (parseCookies req.cookie) rand st pr hrt
      obtain ⟨_, _, _, hh⟩ := handle_ok t0 t1 rand req st pr.1 pr.2 hm (by rw [hrt])
      refine ⟨by rw [hh]; exact hnone, ?_⟩
      simp only [handle, if_neg hm, hrt, resSetHeader, hend, if_true]

/-- The authorization gate: a mutating method on a `/books*` path with
a token that is not the shared secret is refused before any
route-specific work. -/
theorem auth_gate_401 (t0 t1 : Nat) (rand p : String) (m : Method)
    (q : List (String × String)) (auth ck : Option String) (bd : String) (be : Bool) (st : St)
    (hm : isMutating m = true) (hp : strStartsWith p "/books" = true)
    (ha : parseBearer (auth.getD "") ≠ some DEMO_BEARER) :
    (handle t0 t1 rand ⟨m, p, q, auth, ck, bd, be⟩ st).1.status = 401 ∧
    getH (handle t0 t1 rand ⟨m, p, q, auth, ck, bd, be⟩ st).1.headers "WWW-Authenticate" =
      some "Bearer realm=\"simple-demo\"" ∧
    (handle t0 t1 rand ⟨m, p, q, auth, ck, bd, be⟩ st).2 = st := by
  have hmO : m ≠ Method.OPTIONS := by cases m <;> simp_all [isMutating]
  have hmG : m ≠ Method.GET := by cases m <;> simp_all [isMutating]
  simp only [handle, routeTry, routeMut]
  rw [if_neg hmO, if_neg (fun h => hmG h.1), if_neg hmG, if_pos ⟨hm, hp, ha⟩]
  exact ⟨rfl, rfl, rfl⟩

/-- C3: for every mutating-method request (POST/PUT/PATCH/DELETE) on a
path beginning with `/books`, when the bearer token extracted from the
`Authorization` header (missing header included) is not exactly the
shared secret, the handler answers 401 with a `WWW-Authenticate`
header and the state — collection and counter — is untouched.  The
body is universally quantified, so the gate decides before any
route-specific body validation. -/
theorem c3_auth_gate (t0 t1 : Nat) (rand p : String) (m : Method)
    (q : List (String × String)) (auth ck : Option String) (bd : String) (be : Bool) (st : St)
    (hm : isMutating m = true) (hp : strStartsWith p "/books" = true)
    (ha : parseBearer (auth.getD "") ≠ some DEMO_BEARER) :
    (handle t0 t1 rand ⟨m, p, q, auth, ck, bd, be⟩ st).1.status = 401 ∧
    getH (handle t0 t1 rand ⟨m, p, q, auth, ck, bd, be⟩ st).1.headers "WWW-Authenticate" =
      some "Bearer realm=\"simple-demo\"" ∧
    (handle t0 t1 rand ⟨m, p, q, auth, ck, bd, be⟩ st).2 = st :=
  auth_gate_401 t0 t1 rand p m q auth ck bd be st hm hp ha

/-- C3 witness: a concrete POST with no `Authorization` header and a
body missing the required fields is answered 401 (not 400) with no
mutation. -/
theorem c3_witness :
    (handle 0 0 "r" ⟨Method.POST, "/books", [], none, none, "\x7b\x7d", false⟩ initSt).1.status = 401 ∧
    (handle 0 0 "r" ⟨Method.POST, "/books", [], none, none, "\x7b\x7d", false⟩ initSt).2 = initSt := by
  have h := c3_auth_gate 0 0 "r" "/books" Method.POST [] none none "\x7b\x7d" false initSt
    (by decide) (by decide) (by decide)
  exact ⟨h.1, h.2.2⟩

-- --- C4: PUT with a missing field mutates nothing ---

/-- C4: a PUT to `/books/:id` with valid authorization whose body
value lacks `title` or lacks `author` is answered 400 and the state —
collection and next-id counter — is exactly as before. -/
theorem c4_put_missing_field (t0 t1 : Nat) (rand p ds : String) (q : List (String × String))
    (auth ck : Option String) (bd : String) (st : St)
    (hid : idArgOf p = some ds)
    (ha : parseBearer (auth.getD "") = some DEMO_BEARER)
    (hv : getField (bodyValOf ⟨Method.PUT, p, q, auth, ck, bd, false⟩) "title" = JsVal.vUndefined ∨
          getField (bodyValOf ⟨Method.PUT, p, q, auth, ck, bd, false⟩) "author" = JsVal.vUndefined) :
    (handle t0 t1 rand ⟨Method.PUT, p, q, auth, ck, bd, false⟩ st).1.status = 400 ∧
    (handle t0 t1 rand ⟨Method.PUT, p, q, auth, ck, bd, false⟩ st).2 = st := by
  have hcheck : ¬jsTruthy (bodyValOf ⟨Method.PUT, p, q, auth, ck, bd, false⟩) ∨
      ¬jsTruthy (getField (bodyValOf ⟨Method.PUT, p, q, auth, ck, bd, false⟩) "title") ∨
      ¬jsTruthy (getField (bodyValOf ⟨Method.PUT, p, q, auth, ck, bd, false⟩) "author") := by
    rcases hv with h | h
    · exact Or.inr (Or.inl (by rw [h]; simp [jsTruthy]))
    · exact Or.inr (Or.inr (by rw [h]; simp [jsTruthy]))
  have hrt : routeTry ⟨Method.PUT, p, q, auth, ck, bd, false⟩ (parseCookies ck) rand st =
      .ok (sendJSON corsHeaders 400 (errObj "Missing title or author in request body"), st) := by
    simp only [routeTry, routeMut]
    rw [if_neg (fun h => absurd h.1 (by decide))]
    rw [if_neg (by decide : ¬(Method.PUT = Method.GET))]
    rw [if_neg (fun h => h.2.2 ha)]
    rw [if_neg (fun h => absurd h.1 (by decide))]
    simp only [hid, putBook, readBody_noErr ⟨Method.PUT, p, q, auth, ck, bd, false⟩ rfl]
    split
    · rfl
    · next hcon => exact (hcon hcheck).elim
  obtain ⟨h1, _, h3, _⟩ := handle_ok t0 t1 rand ⟨Method.PUT, p, q, auth, ck, bd, false⟩ st _ _
    (by simp) hrt
  exact ⟨h1, h3⟩

/-- C4 witness: a concrete PUT of `{"title":"T"}` (no author) to an
existing id is answered 400 and the seeded state is unchanged. -/
theorem c4_witness :
    (handle 0 0 "r" ⟨Method.PUT, "/books/1", [], some "Bearer secret-token-123", none,
      "\x7b\"title\":\"T\"\x7d", false⟩ initSt).1.status = 400 ∧
    (handle 0 0 "r" ⟨Method.PUT, "/books/1", [], some "Bearer secret-token-123", none,
      "\x7b\"title\":\"T\"\x7d", false⟩ initSt).2 = initSt := by
  exact c4_put_missing_field 0 0 "r" "/books/1" "1" [] (some "Bearer secret-token-123") none
    "\x7b\"title\":\"T\"\x7d" initSt rfl rfl (Or.inr rfl)

-- --- C2: unparseable bodies ---

/-- Patching inside a decomposed list: the first record with the
target id is updated, everything else is untouched. -/
theorem patchFirst_split (bs1 : List Book) (b : Book) (bs2 : List Book) (id : Int) (body : JsVal)
    (hfresh : ∀ x ∈ bs1, x.id ≠ id) (hb : b.id = id) :
    patchFirst (bs1 ++ b :: bs2) id body =
      some (bs1 ++ applyPatch b body :: bs2, applyPatch b body) := by
  induction bs1 with
  | nil => simp [patchFirst, hb]
  | cons x t ih =>
    have hx : ¬(x.id = id) := hfresh x (by simp)
    simp [patchFirst, hx, ih (fun y hy => hfresh y (by simp [hy]))]

/-- C2 (amended): a non-empty body that fails to parse is passed
through as the raw string.  POST and PUT then fail their own presence
checks and answer 400 with no mutation; PATCH, whose only body check
is non-emptiness, accepts the raw string, finds no supplied fields,
and answers 200 for an existing id with the record — and the whole
state — unchanged. -/
theorem c2_raw_body :
    (∀ (t0 t1 : Nat) (rand : String) (q : List (String × String)) (auth ck : Option String)
       (bd : String) (st : St),
       parseBearer (auth.getD "") = some DEMO_BEARER → bd ≠ "" → parseJson bd = none →
       (handle t0 t1 rand ⟨Method.POST, "/books", q, auth, ck, bd, false⟩ st).1.status = 400 ∧
       (handle t0 t1 rand ⟨Method.POST, "/books", q, auth, ck, bd, false⟩ st).2 = st) ∧
    (∀ (t0 t1 : Nat) (rand p ds : String) (q : List (String × String)) (auth ck : Option String)
       (bd : String) (st : St),
       idArgOf p = some ds →
       parseBearer (auth.getD "") = some DEMO_BEARER → bd ≠ "" → parseJson bd = none →
       (handle t0 t1 rand ⟨Method.PUT, p, q, auth, ck, bd, false⟩ st).1.status = 400 ∧
       (handle t0 t1 rand ⟨Method.PUT, p, q, auth, ck, bd, false⟩ st).2 = st) ∧
    (∀ (t0 t1 : Nat) (rand p ds : String) (q : List (String × String)) (auth ck : Option String)
       (bd : String) (st : St) (bs1 : List Book) (b : Book) (bs2 : List Book),
       idArgOf p = some ds →
       parseBearer (auth.getD "") = some DEMO_BEARER → bd ≠ "" → parseJson bd = none →
       st.books = bs1 ++ b :: bs2 → (∀ x ∈ bs1, x.id ≠ digitsToInt ds) →
       b.id = digitsToInt ds →
       (handle t0 t1 rand ⟨Method.PATCH, p, q, auth, ck, bd, false⟩ st).1.status = 200 ∧
       (handle t0 t1 rand ⟨Method.PATCH, p, q, auth, ck, bd, false⟩ st).2 = st) := by
  refine ⟨?_, ?_, ?_⟩
  · intro t0 t1 rand q auth ck bd st ha hbd hparse
    have hraw : bodyValOf ⟨Method.POST, "/books", q, auth, ck, bd, false⟩ = .vStr bd := by
      simp [bodyValOf, hbd, hparse]
    have hcheck : ¬jsTruthy (bodyValOf ⟨Method.POST, "/books", q, auth, ck, bd, false⟩) ∨
        ¬jsTruthy (getField (bodyValOf ⟨Method.POST, "/books", q, auth, ck, bd, false⟩) "title") ∨
        ¬jsTruthy (getField (bodyValOf ⟨Method.POST, "/books", q, auth, ck, bd, false⟩) "author") :=
      Or.inr (Or.inl (by rw [hraw]; simp [getField, jsTruthy]))
    have hrt : routeTry ⟨Method.POST, "/books", q, auth, ck, bd, false⟩ (parseCookies ck) rand st =
        .ok (sendJSON corsHeaders 400 (errObj "Missing title or author in request body"), st) := by
      simp only [routeTry, routeMut]
      rw [if_neg (fun h => absurd h.1 (by decide))]
      rw [if_neg (by decide : ¬(Method.POST = Method.GET))]
      rw [if_neg (fun h => h.2.2 ha)]
      split
      · simp only [postBooks, readBody_noErr ⟨Method.POST, "/books", q, auth, ck, bd, false⟩ rfl]
        split
        · rfl
        · next hcon => exact (hcon hcheck).elim
      · next hcon => exact absurd (by simp) hcon
    obtain ⟨h1, _, h3, _⟩ := handle_ok t0 t1 rand ⟨Method.POST, "/books", q, auth, ck, bd, false⟩
      st _ _ (by simp) hrt
    exact ⟨h1, h3⟩
  · intro t0 t1 rand p ds q auth ck bd st hid ha hbd hparse
    have hraw : bodyValOf ⟨Method.PUT, p, q, auth, ck, bd, false⟩ = .vStr bd := by
      simp [bodyValOf, hbd, hparse]
    have hcheck : ¬jsTruthy (bodyValOf ⟨Method.PUT, p, q, auth, ck, bd, false⟩) ∨
        ¬jsTruthy (getField (bodyValOf ⟨Method.PUT, p, q, auth, ck, bd, false⟩) "title") ∨
        ¬jsTruthy (getField (bodyValOf ⟨Method.PUT, p, q, auth, ck, bd, false⟩) "author") :=
      Or.inr (Or.inl (by rw [hraw]; simp [getField, jsTruthy]))
    have hrt : routeTry ⟨Method.PUT, p, q, auth, ck, bd, false⟩ (parseCookies ck) rand st =
        .ok (sendJSON corsHeaders 400 (errObj "Missing title or author in request body"), st) := by
      simp only [routeTry, routeMut]
      rw [if_neg (fun h => absurd h.1 (by decide))]
      rw [if_neg (by decide : ¬(Method.PUT = Method.GET))]
      rw [if_neg (fun h => h.2.2 ha)]
      rw [if_neg (fun h => absurd h.1 (by decide))]
      simp only [hid, putBook, readBody_noErr ⟨Method.PUT, p, q, auth, ck, bd, false⟩ rfl]
      split
      · rfl
      · next hcon => exact (hcon hcheck).elim
    obtain ⟨h1, _, h3, _⟩ := handle_ok t0 t1 rand ⟨Method.PUT, p, q, auth, ck, bd, false⟩
      st _ _ (by simp) hrt
    exact ⟨h1, h3⟩
  · intro t0 t1 rand p ds q auth ck bd st bs1 b bs2 hid ha hbd hparse hsplit hfresh hb
    have hraw : bodyValOf ⟨Method.PATCH, p, q, auth, ck, bd, false⟩ = .vStr bd := by
      simp [bodyValOf, hbd, hparse]
    have hnoop : applyPatch b (JsVal.vStr bd) = b := rfl
    have hrt : routeTry ⟨Method.PATCH, p, q, auth, ck, bd, false⟩ (parseCookies ck) rand st =
        .ok (sendJSON corsHeaders 200 (.vObj [("data", bookToJs b)]),
             { books := bs1 ++ b :: bs2, nextId := st.nextId }) := by
      simp only [routeTry, routeMut]
      rw [if_neg (fun h => absurd h.1 (by decide))]
      rw [if_neg (by decide : ¬(Method.PATCH = Method.GET))]
      rw [if_neg (fun h => h.2.2 ha)]
      rw [if_neg (fun h => absurd h.1 (by decide))]
      simp only [hid, patchBook, readBody_noErr ⟨Method.PATCH, p, q, auth, ck, bd, false⟩ rfl]
      rw [hraw]
      split
      · next hcon => exact absurd (by simp [jsTruthy, hbd]) hcon
      · simp only [hsplit,
          patchFirst_split bs1 b bs2 (digitsToInt ds) (JsVal.vStr bd) hfresh hb, hnoop]
    obtain ⟨h1, _, h3, _⟩ := handle_ok t0 t1 rand ⟨Method.PATCH, p, q, auth, ck, bd, false⟩
      st _ _ (by simp) hrt
    refine ⟨h1, ?_⟩
    rw [h3]
    rw [← hsplit]

/-- C2 counterexample: the concrete PATCH of the unparseable non-empty
body `not json` to the existing id 1, with valid authorization, is
answered 200 — not 400 as claimed — and changes nothing. -/
theorem c2_counterexample :
    (handle 0 0 "r" ⟨Method.PATCH, "/books/1", [], some "Bearer secret-token-123", none,
      "not json", false⟩ initSt).1.status = 200 ∧
    (handle 0 0 "r" ⟨Method.PATCH, "/books/1", [], some "Bearer secret-token-123", none,
      "not json", false⟩ initSt).2 = initSt := by
  exact ⟨rfl, rfl⟩

/-- C2 witness: the amended behavior at concrete inputs — POST of the
same unparseable body answers 400 with no mutation. -/
theorem c2_witness :
    (handle 0 0 "r" ⟨Method.POST, "/books", [], some "Bearer secret-token-123", none,
      "not json", false⟩ initSt).1.status = 400 ∧
    (handle 0 0 "r" ⟨Method.POST, "/books", [], some "Bearer secret-token-123", none,
      "not json", false⟩ initSt).2 = initSt := by
  exact c2_raw_body.1 0 0 "r" [] (some "Bearer secret-token-123") none "not json" initSt
    rfl (by simp) rfl

-- --- C10: malformed pagination parameters ---

/-- `NaN` absorbs on the left of `+`. -/
theorem jsAdd_none_left (y : JsNum) : jsAdd none y = none := by cases y <;> rfl

/-- `NaN` absorbs on the left of `*`. -/
theorem jsMul_none_left (y : JsNum) : jsMul none y = none := by cases y <;> rfl

/-- `NaN` absorbs on the right of `*` (in JS even `0 * NaN` is `NaN`). -/
theorem jsMul_none_right (x : JsNum) : jsMul x none = none := by cases x <;> rfl

/-- When the slice start index is `NaN`, the GET `/books` page is
empty: both slice bounds convert to 0. -/
theorem listBooks_nan_body (q : List (String × String)) (st : St)
    (h : jsMul (jsSub (jsParseInt (paramOr (getParam q "page") "1")) (some 1))
           (jsParseInt (paramOr (getParam q "limit") "10")) = none) :
    (listBooks q st).body =
      .vObj [("page", jsNumToVal (jsParseInt (paramOr (getParam q "page") "1"))),
             ("limit", jsNumToVal (jsParseInt (paramOr (getParam q "limit") "10"))),
             ("total", .vNum ((filteredBooks q st).length : Int) 0),
             ("data", .vArr [])] := by
  simp only [listBooks, sendJSON, h, jsAdd_none_left]
  simp [jsSlice, sliceIndex]

/-- C10: a GET `/books` whose effective `limit` or `page` string
parses to no number (`parseInt` gives `NaN`) is still answered 200;
`total` is the filtered collection size, `data` is empty, and nothing
is mutated — malformed pagination never yields an error response. -/
theorem c10_nan_pagination (t0 t1 : Nat) (rand : String) (q : List (String × String))
    (auth ck : Option String) (bd : String) (be : Bool) (st : St)
    (h : jsParseInt (paramOr (getParam q "limit") "10") = none ∨
         jsParseInt (paramOr (getParam q "page") "1") = none) :
    (handle t0 t1 rand ⟨Method.GET, "/books", q, auth, ck, bd, be⟩ st).1.status = 200 ∧
    getField (handle t0 t1 rand ⟨Method.GET, "/books", q, auth, ck, bd, be⟩ st).1.body "data" =
      .vArr [] ∧
    getField (handle t0 t1 rand ⟨Method.GET, "/books", q, auth, ck, bd, be⟩ st).1.body "total" =
      .vNum ((filteredBooks q st).length : Int) 0 ∧
    (handle t0 t1 rand ⟨Method.GET, "/books", q, auth, ck, bd, be⟩ st).2 = st := by
  have hnan : jsMul (jsSub (jsParseInt (paramOr (getParam q "page") "1")) (some 1))
      (jsParseInt (paramOr (getParam q "limit") "10")) = none := by
    rcases h with hL | hP
    · rw [hL]; exact jsMul_none_right _
    · rw [hP]
      show jsMul (jsSub none (some 1)) _ = none
      exact jsMul_none_left _
  have hrt : routeTry ⟨Method.GET, "/books", q, auth, ck, bd, be⟩ (parseCookies ck) rand st =
      .ok (listBooks q st, st) := by
    simp [routeTry]
  obtain ⟨h1, h2, h3, _⟩ := handle_ok t0 t1 rand ⟨Method.GET, "/books", q, auth, ck, bd, be⟩
    st _ _ (by simp) hrt
  refine ⟨by rw [h1]; rfl, ?_, ?_, h3⟩
  · rw [h2, listBooks_nan_body q st hnan]
    rfl
  · rw [h2, listBooks_nan_body q st hnan]
    rfl

/-- C10 witness: `?limit=abc` on the seeded store answers 200 with an
empty page and `total` 3. -/
theorem c10_witness :
    (handle 0 0 "r" ⟨Method.GET, "/books", [("limit", "abc")], none, none, "", false⟩ initSt).1.status
      = 200 ∧
    getField (handle 0 0 "r" ⟨Method.GET, "/books", [("limit", "abc")], none, none, "", false⟩
      initSt).1.body "data" = .vArr [] ∧
    getField (handle 0 0 "r" ⟨Method.GET, "/books", [("limit", "abc")], none, none, "", false⟩
      initSt).1.body "total" = .vNum 3 0 := by
  obtain ⟨h1, h2, h3, _⟩ := c10_nan_pagination 0 0 "r" [("limit", "abc")] none none "" false initSt
    (Or.inl rfl)
  exact ⟨h1, h2, h3⟩

-- --- C5: GET /books pagination and filtering ---

/-- Taking `min n length` is taking `n`. -/
theorem take_min_length {α : Type} (l : List α) (n : Nat) :
    l.take (min n l.length) = l.take n := by
  rcases le_total n l.length with h | h
  · rw [min_eq_left h]
  · rw [min_eq_right h, List.take_length, List.take_of_length_le h]

/-- `list.slice(s, s + m)` with non-negative integer bounds is
drop-then-take. -/
theorem jsSlice_nonneg {α : Type} (l : List α) (s m : Int) (hs : 0 ≤ s) (hm : 0 ≤ m) :
    jsSlice l (some s) (some (s + m)) = (l.drop s.toNat).take m.toNat := by
  have htn : (s + m).toNat = s.toNat + m.toNat := by omega
  simp only [jsSlice, sliceIndex, if_neg (by omega : ¬(s < 0)), if_neg (by omega : ¬(s + m < 0))]
  rw [htn, List.take_drop, take_min_length]
  rcases le_total s.toNat l.length with h | h
  · rw [min_eq_left h]
  · rw [min_eq_right h, List.drop_eq_nil_of_le (le_trans (by simp) h)]
    exact List.drop_eq_nil_of_le (by rw [List.length_take]; omega)

/-- C5: GET `/books` with parseable pagination parameters (`l ≥ 0`
pagination width, `p ≥ 1` 1-indexed page) answers 200 with body
`{ page, limit, total, data }`: the defaults are 10 and 1 when the
parameters are absent; a truthy `author` parameter filters, before
pagination, to exactly the records whose lower-cased author contains
the lower-cased parameter as a substring; `total` is the filtered
(pre-pagination) count and `data` is the slice of the filtered list
from index `(p-1)*l` of length at most `l`.  Nothing is mutated. -/
theorem c5_list_books (t0 t1 : Nat) (rand : String) (q : List (String × String))
    (auth ck : Option String) (bd : String) (be : Bool) (st : St) (l p : Int)
    (hl : jsParseInt (paramOr (getParam q "limit") "10") = some l)
    (hp : jsParseInt (paramOr (getParam q "page") "1") = some p)
    (hl0 : 0 ≤ l) (hp1 : 1 ≤ p) :
    (handle t0 t1 rand ⟨Method.GET, "/books", q, auth, ck, bd, be⟩ st).1.status = 200 ∧
    (getParam q "limit" = none → l = 10) ∧
    (getParam q "page" = none → p = 1) ∧
    (∀ a, getParam q "author" = some a → a ≠ "" →
       ∀ b : Book, b ∈ filteredBooks q st ↔
         b ∈ st.books ∧ containsSub (strToLower b.author) (strToLower a) = true) ∧
    (handle t0 t1 rand ⟨Method.GET, "/books", q, auth, ck, bd, be⟩ st).1.body =
      .vObj [("page", .vNum p 0), ("limit", .vNum l 0),
             ("total", .vNum ((filteredBooks q st).length : Int) 0),
             ("data", .vArr ((((filteredBooks q st).drop ((p - 1) * l).toNat).take l.toNat).map
               bookToJs))] ∧
    (handle t0 t1 rand ⟨Method.GET, "/books", q, auth, ck, bd, be⟩ st).2 = st := by
  have hrt : routeTry ⟨Method.GET, "/books", q, auth, ck, bd, be⟩ (parseCookies ck) rand st =
      .ok (listBooks q st, st) := by
    simp [routeTry]
  obtain ⟨h1, h2, h3, _⟩ := handle_ok t0 t1 rand ⟨Method.GET, "/books", q, auth, ck, bd, be⟩
    st _ _ (by simp) hrt
  have hbody : (listBooks q st).body =
      .vObj [("page", .vNum p 0), ("limit", .vNum l 0),
             ("total", .vNum ((filteredBooks q st).length : Int) 0),
             ("data", .vArr ((((filteredBooks q st).drop ((p - 1) * l).toNat).take l.toNat).map
               bookToJs))] := by
    simp only [listBooks, sendJSON, hl, hp, jsSub, jsMul, jsAdd, jsNumToVal]
    rw [jsSlice_nonneg (filteredBooks q st) ((p - 1) * l) l
      (mul_nonneg (by omega) hl0) hl0]
  refine ⟨by rw [h1]; rfl, ?_, ?_, ?_, by rw [h2, hbody], h3⟩
  · intro h0
    rw [h0] at hl
    have h10 : jsParseInt (paramOr (none : Option String) "10") = some 10 := rfl
    rw [h10] at hl
    exact (Option.some.inj hl).symm
  · intro h0
    rw [h0] at hp
    have h1' : jsParseInt (paramOr (none : Option String) "1") = some 1 := rfl
    rw [h1'] at hp
    exact (Option.some.inj hp).symm
  · intro a haq hane b
    simp [filteredBooks, haq, hane, List.mem_filter]

/-- C5 witness: `?limit=1&page=2` on the seeded three-record store
answers 200 with exactly the second record. -/
theorem c5_witness :
    (handle 0 0 "r" ⟨Method.GET, "/books", [("limit", "1"), ("page", "2")], none, none, "",
      false⟩ initSt).1.status = 200 ∧
    (handle 0 0 "r" ⟨Method.GET, "/books", [("limit", "1"), ("page", "2")], none, none, "",
      false⟩ initSt).1.body =
      .vObj [("page", .vNum 2 0), ("limit", .vNum 1 0), ("total", .vNum 3 0),
             ("data", .vArr [bookToJs
               { id := 2, title := "You Don\x27t Know JS", author := "Kyle Simpson" }])] := by
  obtain ⟨h1, _, _, _, h5, _⟩ := c5_list_books 0 0 "r" [("limit", "1"), ("page", "2")]
    none none "" false initSt 1 2 rfl rfl (by omega) (by omega)
  exact ⟨h1, h5.trans rfl⟩

-- --- C6: PATCH updates only the supplied fields ---

/-- C6: a PATCH to `/books/:id` with valid authorization, a JSON
object body, and an existing id (first match after `bs1`, none of
whose records carry the id) updates exactly that record to its
patched form and nothing else: the counter and all other records are
untouched.  The patched record keeps its id; its author is unchanged
when the body supplies no `author`; and its title becomes the
string-coerced supplied value when the body supplies `title`.  The
response carries the patched record. -/
theorem c6_patch_frame (t0 t1 : Nat) (rand p ds : String) (q : List (String × String))
    (auth ck : Option String) (bd : String) (st : St)
    (bs1 : List Book) (b : Book) (bs2 : List Book) (fs : List (String × JsVal))
    (hid : idArgOf p = some ds)
    (ha : parseBearer (auth.getD "") = some DEMO_BEARER)
    (hparse : parseJson bd = some (.vObj fs))
    (hsplit : st.books = bs1 ++ b :: bs2)
    (hfresh : ∀ x ∈ bs1, x.id ≠ digitsToInt ds)
    (hb : b.id = digitsToInt ds) :
    (handle t0 t1 rand ⟨Method.PATCH, p, q, auth, ck, bd, false⟩ st).1.status = 200 ∧
    (handle t0 t1 rand ⟨Method.PATCH, p, q, auth, ck, bd, false⟩ st).2.books =
      bs1 ++ applyPatch b (.vObj fs) :: bs2 ∧
    (handle t0 t1 rand ⟨Method.PATCH, p, q, auth, ck, bd, false⟩ st).2.nextId = st.nextId ∧
    (applyPatch b (.vObj fs)).id = b.id ∧
    (getField (.vObj fs) "author" = .vUndefined → (applyPatch b (.vObj fs)).author = b.author) ∧
    (∀ w, getField (.vObj fs) "title" = w → w.isUndef = false →
       (applyPatch b (.vObj fs)).title = jsToString w) ∧
    getField (handle t0 t1 rand ⟨Method.PATCH, p, q, auth, ck, bd, false⟩ st).1.body "data" =
      bookToJs (applyPatch b (.vObj fs)) := by
  have hbd : bd ≠ "" := by
    intro h0
    rw [h0] at hparse
    exact absurd hparse (by rw [show parseJson "" = none from rfl]; simp)
  have hraw : bodyValOf ⟨Method.PATCH, p, q, auth, ck, bd, false⟩ = .vObj fs := by
    simp [bodyValOf, hbd, hparse]
  have hrt : routeTry ⟨Method.PATCH, p, q, auth, ck, bd, false⟩ (parseCookies ck) rand st =
      .ok (sendJSON corsHeaders 200 (.vObj [("data", bookToJs (applyPatch b (.vObj fs)))]),
           { books := bs1 ++ applyPatch b (.vObj fs) :: bs2, nextId := st.nextId }) := by
    simp only [routeTry, routeMut]
    rw [if_neg (fun h => absurd h.1 (by decide))]
    rw [if_neg (by decide : ¬(Method.PATCH = Method.GET))]
    rw [if_neg (fun h => h.2.2 ha)]
    rw [if_neg (fun h => absurd h.1 (by decide))]
    simp only [hid, patchBook, readBody_noErr ⟨Method.PATCH, p, q, auth, ck, bd, false⟩ rfl]
    rw [hraw]
    split
    · next hcon => exact absurd (by simp [jsTruthy]) hcon
    · simp only [hsplit, patchFirst_split bs1 b bs2 (digitsToInt ds) (JsVal.vObj fs) hfresh hb]
  obtain ⟨h1, h2, h3, _⟩ := handle_ok t0 t1 rand ⟨Method.PATCH, p, q, auth, ck, bd, false⟩
    st _ _ (by simp) hrt
  refine ⟨by rw [h1]; rfl, by rw [h3], by rw [h3], rfl, ?_, ?_, by rw [h2]; rfl⟩
  · intro h0
    simp [applyPatch, h0, JsVal.isUndef]
  · intro w hw hwu
    simp [applyPatch, hw, hwu]

/-- C6 witness: the concrete PATCH of `{"title":"X"}` to id 1 changes
only that record, to title `X` with author and id unchanged. -/
theorem c6_witness :
    (handle 0 0 "r" ⟨Method.PATCH, "/books/1", [], some "Bearer secret-token-123", none,
      "\x7b\"title\":\"X\"\x7d", false⟩ initSt).1.status = 200 ∧
    (handle 0 0 "r" ⟨Method.PATCH, "/books/1", [], some "Bearer secret-token-123", none,
      "\x7b\"title\":\"X\"\x7d", false⟩ initSt).2.books =
      [{ id := 1, title := "X", author := "Marijn Haverbeke" },
       { id := 2, title := "You Don\x27t Know JS", author := "Kyle Simpson" },
       { id := 3, title := "Clean Code", author := "Robert C. Martin" }] ∧
    (handle 0 0 "r" ⟨Method.PATCH, "/books/1", [], some "Bearer secret-token-123", none,
      "\x7b\"title\":\"X\"\x7d", false⟩ initSt).2.nextId = 4 := by
  obtain ⟨h1, h2, h3, _, _, _, _⟩ := c6_patch_frame 0 0 "r" "/books/1" "1" []
    (some "Bearer secret-token-123") none "\x7b\"title\":\"X\"\x7d" initSt
    [] { id := 1, title := "Eloquent JS", author := "Marijn Haverbeke" }
    [{ id := 2, title := "You Don\x27t Know JS", author := "Kyle Simpson" },
     { id := 3, title := "Clean Code", author := "Robert C. Martin" }]
    [("title", .vStr "X")]
    rfl rfl rfl rfl (by simp) rfl
  exact ⟨h1, h2.trans rfl, h3.trans rfl⟩

-- --- The store invariant and its preservation ---

/-- The store invariant: all ids distinct, every id below the
counter. -/
def StInv (st : St) : Prop :=
  (st.books.map Book.id).Nodup ∧ ∀ b ∈ st.books, b.id < st.nextId

/-- A full replace by a record carrying the matched id preserves the
id sequence. -/
theorem replaceFirst_ids (bs : List Book) (id : Int) (nb : Book) (bks : List Book)
    (h : replaceFirst bs id nb = some bks) (hnb : nb.id = id) :
    bks.map Book.id = bs.map Book.id := by
  induction bs generalizing bks with
  | nil => simp [replaceFirst] at h
  | cons x t ih =>
    by_cases hx : x.id = id
    · simp only [replaceFirst, if_pos hx] at h
      cases h
      simp [hnb, hx]
    · simp only [replaceFirst, if_neg hx, Option.map_eq_some'] at h
      obtain ⟨a, ha, rfl⟩ := h
      simp [ih a ha]

/-- A patch rewrites fields in place and preserves the id sequence. -/
theorem patchFirst_ids (bs : List Book) (id : Int) (body : JsVal) (pr : List Book × Book)
    (h : patchFirst bs id body = some pr) :
    pr.1.map Book.id = bs.map Book.id := by
  induction bs generalizing pr with
  | nil => simp [patchFirst] at h
  | cons x t ih =>
    by_cases hx : x.id = id
    · simp only [patchFirst, if_pos hx] at h
      cases h
      simp [applyPatch]
    · simp only [patchFirst, if_neg hx, Option.map_eq_some'] at h
      obtain ⟨a, ha, rfl⟩ := h
      simp [ih a ha]

/-- A successful removal splits the list at the first match. -/
theorem removeFirst_split (bs : List Book) (id : Int) (pr : Book × List Book)
    (h : removeFirst bs id = some pr) :
    ∃ bs1 bs2, bs = bs1 ++ pr.1 :: bs2 ∧ pr.2 = bs1 ++ bs2 ∧ pr.1.id = id ∧
      ∀ x ∈ bs1, x.id ≠ id := by
  induction bs generalizing pr with
  | nil => simp [removeFirst] at h
  | cons x t ih =>
    by_cases hx : x.id = id
    · simp only [removeFirst, if_pos hx] at h
      cases h
      exact ⟨[], t, rfl, rfl, hx, by simp⟩
    · simp only [removeFirst, if_neg hx, Option.map_eq_some'] at h
      obtain ⟨a, ha, rfl⟩ := h
      obtain ⟨bs1, bs2, h1, h2, h3, h4⟩ := ih a ha
      exact ⟨x :: bs1, bs2, by simp [h1], by simp [h2], h3, by
        intro y hy
        rcases List.mem_cons.mp hy with rfl | hy
        · exact hx
        · exact h4 y hy⟩

/-- Appending the freshly created record preserves the invariant. -/
theorem stInv_post (st : St) (bk : Book) (hinv : StInv st) (hbk : bk.id = st.nextId) :
    StInv { books := st.books ++ [bk], nextId := st.nextId + 1 } := by
  obtain ⟨hn, hb⟩ := hinv
  constructor
  · rw [List.map_append]
    rw [List.nodup_append]
    refine ⟨hn, by simp, ?_⟩
    intro a ha hc
    simp at hc
    obtain ⟨y, hy, hyid⟩ := List.mem_map.mp ha
    have := hb y hy
    omega
  · intro b hbm
    show b.id < st.nextId + 1
    rcases List.mem_append.mp hbm with h | h
    · have := hb b h
      omega
    · simp at h
      subst h
      omega

/-- A new collection with the same id sequence keeps the invariant. -/
theorem stInv_ids_eq (st : St) (bks : List Book) (hinv : StInv st)
    (h : bks.map Book.id = st.books.map Book.id) :
    StInv { books := bks, nextId := st.nextId } := by
  obtain ⟨hn, hb⟩ := hinv
  constructor
  · rw [h]; exact hn
  · intro b hbm
    have : b.id ∈ st.books.map Book.id := by
      rw [← h]
      exact List.mem_map_of_mem Book.id hbm
    obtain ⟨y, hy, hyid⟩ := List.mem_map.mp this
    rw [← hyid]
    exact hb y hy

/-- Removing a record keeps the invariant. -/
theorem stInv_remove (st : St) (bs1 : List Book) (b : Book) (bs2 : List Book)
    (hinv : StInv st) (h : st.books = bs1 ++ b :: bs2) :
    StInv { books := bs1 ++ bs2, nextId := st.nextId } := by
  obtain ⟨hn, hb⟩ := hinv
  have hsub : (bs1 ++ bs2).Sublist (bs1 ++ b :: bs2) :=
    List.Sublist.append (List.Sublist.refl bs1) (List.Sublist.cons b (List.Sublist.refl bs2))
  constructor
  · exact List.Nodup.sublist (List.Sublist.map Book.id hsub) (h ▸ hn)
  · intro x hx
    exact hb x (h ▸ hsub.mem hx)

/-- Invariant preservation and counter monotonicity across the
mutating route chain. -/
theorem routeMut_inv (req : Request) (rand : String) (st : St) (pr : Response × St)
    (h : routeMut req rand st = .ok pr) (hinv : StInv st) :
    StInv pr.2 ∧ st.nextId ≤ pr.2.nextId := by
  unfold routeMut at h
  split at h
  · cases Except.ok.inj h
    exact ⟨hinv, le_refl _⟩
  · split at h
    · unfold postBooks at h
      dsimp only [] at h
      split at h
      · simp at h
      · split at h
        · cases Except.ok.inj h
          exact ⟨hinv, le_refl _⟩
        · cases Except.ok.inj h
          refine ⟨stInv_post st _ hinv rfl, ?_⟩
          show st.nextId ≤ st.nextId + 1
          omega
    · split at h
      · unfold putBook at h
        split at h
        · simp at h
        · split at h
          · cases Except.ok.inj h
            exact ⟨hinv, le_refl _⟩
          · dsimp only [] at h
            split at h
            · cases Except.ok.inj h
              exact ⟨hinv, le_refl _⟩
            · next books2 heq =>
              cases Except.ok.inj h
              have hids : books2.map Book.id = st.books.map Book.id :=
                replaceFirst_ids _ _ _ _ heq rfl
              exact ⟨stInv_ids_eq st books2 hinv hids, le_refl _⟩
      · unfold patchBook at h
        split at h
        · simp at h
        · split at h
          · cases Except.ok.inj h
            exact ⟨hinv, le_refl _⟩
          · dsimp only [] at h
            split at h
            · cases Except.ok.inj h
              exact ⟨hinv, le_refl _⟩
            · next books2 b2 heq =>
              cases Except.ok.inj h
              exact ⟨stInv_ids_eq st books2 hinv (patchFirst_ids _ _ _ _ heq), le_refl _⟩
      · unfold deleteBook at h
        dsimp only [] at h
        split at h
        · cases Except.ok.inj h
          exact ⟨hinv, le_refl _⟩
        · next removed books2 heq =>
          cases Except.ok.inj h
          obtain ⟨bs1, bs2, h1, h2, _, _⟩ := removeFirst_split _ _ _ heq
          refine ⟨?_, le_refl _⟩
          show StInv { books := books2, nextId := st.nextId }
          rw [show books2 = bs1 ++ bs2 from h2]
          exact stInv_remove st bs1 removed bs2 hinv h1
      · cases Except.ok.inj h
        exact ⟨hinv, le_refl _⟩

/-- Invariant preservation and counter monotonicity across the whole
route chain. -/
theorem routeTry_inv (req : Request) (cookies : List (String × String)) (rand : String)
    (st : St) (pr : Response × St)
    (h : routeTry req cookies rand st = .ok pr) (hinv : StInv st) :
    StInv pr.2 ∧ st.nextId ≤ pr.2.nextId := by
  unfold routeTry at h
  split at h
  · cases Except.ok.inj h
    exact ⟨hinv, le_refl _⟩
  · split at h
    · split at h
      · cases Except.ok.inj h
        exact ⟨hinv, le_refl _⟩
      · exact routeMut_inv _ _ _ _ h hinv
    · exact routeMut_inv _ _ _ _ h hinv

/-- Splitting a handled request: either the state is unchanged with a
non-201 status (OPTIONS and the caught-exception path), or the route
chain produced the response. -/
theorem handle_split (t0 t1 : Nat) (rand : String) (req : Request) (st : St) :
    ((handle t0 t1 rand req st).2 = st ∧ (handle t0 t1 rand req st).1.status ≠ 201 ∧
      (handle t0 t1 rand req st).1.status ≠ 200) ∨
    (∃ r, routeTry req (parseCookies req.cookie) rand st = .ok (r, (handle t0 t1 rand req st).2) ∧
      (handle t0 t1 rand req st).1.status = r.status ∧
      (handle t0 t1 rand req st).1.body = r.body) := by
  by_cases hm : req.method = Method.OPTIONS
  · left
    refine ⟨?_, ?_, ?_⟩ <;> simp [handle, hm]
  · rcases hrt : routeTry req (parseCookies req.cookie) rand st with e | pr
    · left
      refine ⟨?_, ?_, ?_⟩ <;> simp [handle, hm, hrt, sendJSON, resSetHeader]
    · right
      obtain ⟨h1, h2, h3, _⟩ := handle_ok t0 t1 rand req st pr.1 pr.2 hm (by rw [hrt])
      refine ⟨pr.1, ?_, h1, h2⟩
      rw [h3]

/-- One step preserves the invariant and never decreases the
counter. -/
theorem stepSt_inv (st st' : St) (h : StepSt st st') (hinv : StInv st) :
    StInv st' ∧ st.nextId ≤ st'.nextId := by
  obtain ⟨t0, t1, rand, req, hh⟩ := h
  rcases handle_split t0 t1 rand req st with ⟨h1, _, _⟩ | ⟨r, hrt, _, _⟩
  · rw [← hh, h1]
    exact ⟨hinv, le_refl _⟩
  · have := routeTry_inv req (parseCookies req.cookie) rand st
      (r, (handle t0 t1 rand req st).2) hrt hinv
    rw [← hh]
    exact this

/-- Many steps preserve the invariant and never decrease the
counter. -/
theorem steps_inv (st st' : St) (h : Steps st st') (hinv : StInv st) :
    StInv st' ∧ st.nextId ≤ st'.nextId := by
  induction h with
  | refl => exact ⟨hinv, le_refl _⟩
  | tail _ hstep ih =>
    obtain ⟨hi, hle⟩ := ih
    obtain ⟨hi', hle'⟩ := stepSt_inv _ _ hstep hi
    exact ⟨hi', le_trans hle hle'⟩

/-- The seeded initial state satisfies the invariant. -/
theorem initSt_inv : StInv initSt := by
  constructor
  · decide
  · decide

/-- Every reachable state satisfies the invariant. -/
theorem reachable_inv (st : St) (h : Reachable st) : StInv st := by
  induction h with
  | seed => exact initSt_inv
  | next _ hstep ih => exact (stepSt_inv _ _ hstep ih).1

/-- The serialized record determines the record. -/
theorem bookToJs_inj (b c : Book) (h : bookToJs b = bookToJs c) : b = c := by
  cases b
  cases c
  simp only [bookToJs, JsVal.vObj.injEq, List.cons.injEq, Prod.mk.injEq, JsVal.vNum.injEq,
    JsVal.vStr.injEq] at h
  simp_all

/-- With a non-GET method the route chain is the mutating chain. -/
theorem routeTry_eq_routeMut (req : Request) (cookies : List (String × String))
    (rand : String) (st : St) (hm1 : req.method ≠ Method.GET) :
    routeTry req cookies rand st = routeMut req rand st := by
  unfold routeTry
  rw [if_neg (fun hc => hm1 hc.1), if_neg hm1]

/-- Inversion of a 201 from the mutating chain: only the POST create
path answers 201, appending a record that carries the old counter as
id and bumping the counter. -/
theorem routeMut_post201 (req : Request) (rand : String) (st : St) (pr : Response × St)
    (h : routeMut req rand st = .ok pr) (hst : pr.1.status = 201) :
    ∃ bk : Book, bk.id = st.nextId ∧
      pr.2 = { books := st.books ++ [bk], nextId := st.nextId + 1 } ∧
      getField pr.1.body "data" = bookToJs bk := by
  unfold routeMut at h
  split at h
  · cases Except.ok.inj h
    simp [sendJSON] at hst
  · split at h
    · unfold postBooks at h
      split at h
      · simp at h
      · split at h
        · cases Except.ok.inj h
          simp [sendJSON] at hst
        · cases Except.ok.inj h
          exact ⟨_, rfl, rfl, rfl⟩
    · split at h
      · unfold putBook at h
        dsimp only [] at h
        split at h
        · simp at h
        · split at h
          · cases Except.ok.inj h
            simp [sendJSON] at hst
          · split at h
            · cases Except.ok.inj h
              simp [sendJSON] at hst
            · cases Except.ok.inj h
              simp [sendJSON] at hst
      · unfold patchBook at h
        dsimp only [] at h
        split at h
        · simp at h
        · split at h
          · cases Except.ok.inj h
            simp [sendJSON] at hst
          · split at h
            · cases Except.ok.inj h
              simp [sendJSON] at hst
            · cases Except.ok.inj h
              simp [sendJSON] at hst
      · unfold deleteBook at h
        dsimp only [] at h
        split at h
        · cases Except.ok.inj h
          simp [sendJSON] at hst
        · cases Except.ok.inj h
          simp [sendJSON] at hst
      · cases Except.ok.inj h
        simp [sendJSON] at hst

/-- Inversion of a DELETE 200 from the mutating chain: the only 200 a
DELETE can produce removes the first record matching the path id from
the collection and echoes it. -/
theorem routeMut_delete200 (req : Request) (rand : String) (st : St) (pr : Response × St)
    (hm : req.method = Method.DELETE)
    (h : routeMut req rand st = .ok pr) (hst : pr.1.status = 200) :
    ∃ (removed : Book) (bs1 bs2 : List Book),
      st.books = bs1 ++ removed :: bs2 ∧
      pr.2 = { books := bs1 ++ bs2, nextId := st.nextId } ∧
      getField pr.1.body "data" = bookToJs removed ∧
      (∀ x ∈ bs1, x.id ≠ removed.id) ∧
      (∃ ds, idArgOf req.pathname = some ds ∧ removed.id = digitsToInt ds) := by
  unfold routeMut at h
  split at h
  · cases Except.ok.inj h
    simp [sendJSON] at hst
  · split at h
    · next hcond =>
      rw [hm] at hcond
      simp at hcond
    · split at h
      · next heq1 heq2 =>
        rw [hm] at heq1
        simp at heq1
      · next heq1 heq2 =>
        rw [hm] at heq1
        simp at heq1
      · next heq1 heq2 =>
        unfold deleteBook at h
        dsimp only [] at h
        split at h
        · cases Except.ok.inj h
          simp [sendJSON] at hst
        · next removed books2 hrem =>
          cases Except.ok.inj h
          obtain ⟨bs1, bs2, h1, h2, h3, h4⟩ := removeFirst_split _ _ _ hrem
          refine ⟨removed, bs1, bs2, h1, ?_, rfl, ?_, ⟨_, heq2, h3⟩⟩
          · simp only [] at h2
            rw [h2]
          · intro x hx
            rw [h3]
            exact h4 x hx
      · cases Except.ok.inj h
        simp [sendJSON] at hst

/-- A creating POST is a step. -/
theorem postCreates_step (st st' : St) (a : Int) (h : PostCreates st st' a) :
    StepSt st st' := by
  obtain ⟨t0, t1, rand, req, b, _, _, hsteq, _, _⟩ := h
  exact ⟨t0, t1, rand, req, hsteq⟩

/-- A removing DELETE is a step. -/
theorem deleteRemoves_step (st st' : St) (d : Int) (h : DeleteRemoves st st' d) :
    StepSt st st' := by
  obtain ⟨t0, t1, rand, req, b, _, _, hsteq, _, _⟩ := h
  exact ⟨t0, t1, rand, req, hsteq⟩

/-- What a creating POST does: the created id is the old counter and
the counter is bumped. -/
theorem postCreates_shape (st st' : St) (a : Int) (h : PostCreates st st' a) :
    a = st.nextId ∧ st'.nextId = st.nextId + 1 := by
  obtain ⟨t0, t1, rand, req, b, hm, hst, hsteq, hdata, hida⟩ := h
  rcases handle_split t0 t1 rand req st with ⟨_, hne, _⟩ | ⟨r, hrt, hs, hb⟩
  · exact absurd hst hne
  · rw [routeTry_eq_routeMut req _ rand st (by rw [hm]; intro hc; cases hc)] at hrt
    obtain ⟨bk, hbk, hpr2, hbody⟩ := routeMut_post201 req rand st _ hrt (by rw [← hs]; exact hst)
    have hb' : b = bk := by
      apply bookToJs_inj
      rw [← hdata, hb]
      exact hbody
    have h2 : (handle t0 t1 rand req st).2 = { books := st.books ++ [bk], nextId := st.nextId + 1 } := hpr2
    constructor
    · rw [← hida, hb', hbk]
    · rw [← hsteq, h2]

/-- What a removing DELETE does: the removed id was a stored id below
the counter, the record is gone, and the counter is unchanged. -/
theorem deleteRemoves_shape (st st' : St) (d : Int) (h : DeleteRemoves st st' d) :
    (∃ removed bs1 bs2, st.books = bs1 ++ removed :: bs2 ∧
       st' = { books := bs1 ++ bs2, nextId := st.nextId } ∧ removed.id = d) := by
  obtain ⟨t0, t1, rand, req, b, hm, hst, hsteq, hdata, hida⟩ := h
  rcases handle_split t0 t1 rand req st with ⟨_, _, hne⟩ | ⟨r, hrt, hs, hb⟩
  · exact absurd hst hne
  · rw [routeTry_eq_routeMut req _ rand st (by rw [hm]; intro hc; cases hc)] at hrt
    obtain ⟨removed, bs1, bs2, h1, h2, hbody, _, _⟩ :=
      routeMut_delete200 req rand st _ hm hrt (by rw [← hs]; exact hst)
    have hb' : b = removed := by
      apply bookToJs_inj
      rw [← hdata, hb]
      exact hbody
    refine ⟨removed, bs1, bs2, h1, ?_, by rw [← hida, hb']⟩
    rw [← hsteq]
    exact h2

-- --- C9: id uniqueness, monotonic assignment, no reuse ---

/-- C9: in every state reachable from the seeded store, the book ids
are pairwise distinct; the ids assigned by two successive successful
POST creations (any number of handled requests apart) are strictly
increasing; and an id removed by a successful DELETE is never the id
of a book created later. -/
theorem c9_id_invariants (st : St) (h : Reachable st) :
    (st.books.map Book.id).Nodup ∧
    (∀ st1 a st2 st3 a2, PostCreates st st1 a → Steps st1 st2 → PostCreates st2 st3 a2 →
       a < a2) ∧
    (∀ st1 d st2 st3 a, DeleteRemoves st st1 d → Steps st1 st2 → PostCreates st2 st3 a →
       a ≠ d) := by
  have hinv := reachable_inv st h
  refine ⟨hinv.1, ?_, ?_⟩
  · intro st1 a st2 st3 a2 hp1 hsteps hp2
    obtain ⟨ha1, hn1⟩ := postCreates_shape st st1 a hp1
    obtain ⟨ha2, _⟩ := postCreates_shape st2 st3 a2 hp2
    have hinv1 := (stepSt_inv st st1 (postCreates_step st st1 a hp1) hinv).1
    have hmono := (steps_inv st1 st2 hsteps hinv1).2
    omega
  · intro st1 d st2 st3 a hd hsteps hp
    obtain ⟨removed, bs1, bs2, h1, h2, h3⟩ := deleteRemoves_shape st st1 d hd
    have hdlt : d < st.nextId := by
      rw [← h3]
      exact hinv.2 removed (by rw [h1]; simp)
    have hn1 : st1.nextId = st.nextId := by rw [h2]
    obtain ⟨ha, _⟩ := postCreates_shape st2 st3 a hp
    have hinv1 := (stepSt_inv st st1 (deleteRemoves_step st st1 d hd) hinv).1
    have hmono := (steps_inv st1 st2 hsteps hinv1).2
    omega

/-- C9 witness: the seed state is reachable and its ids are
distinct. -/
theorem c9_witness : (initSt.books.map Book.id).Nodup := by
  exact (c9_id_invariants initSt Reachable.seed).1

-- --- C7: create then fetch ---

/-- A truthy named property forces the owner to be an object (and so
truthy itself). -/
theorem truthy_of_field (v : JsVal) (k : String) (h : jsTruthy (getField v k) = true) :
    jsTruthy v = true := by
  cases v <;> simp [getField, jsTruthy] at h ⊢

/-- A linear scan for a fresh id over the extended collection finds
exactly the appended record. -/
theorem find?_append_fresh (bs : List Book) (nb : Book) (i : Int)
    (hi : nb.id = i) (hfresh : ∀ x ∈ bs, x.id ≠ i) :
    (bs ++ [nb]).find? (fun b => b.id == i) = some nb := by
  induction bs with
  | nil => simp [List.find?, hi]
  | cons x t ih =>
    have hx : (x.id == i) = false := by
      simp only [beq_eq_false_iff_ne, ne_eq]
      exact hfresh x (by simp)
    simp only [List.cons_append, List.find?_cons, hx]
    exact ih (fun y hy => hfresh y (by simp [hy]))

/-- C7: a POST to `/books` with the correct bearer token and a body
supplying truthy `title` and `author` answers 201 carrying the created
record, whose id is the old counter; a subsequent GET of `/books/:id`
for that id on the resulting state answers 200 with a record whose id,
title and author match the created one; and a POST without an
`Authorization` header answers 401. -/
theorem c7_post_then_get (t0 t1 : Nat) (rand : String) (q : List (String × String))
    (auth ck : Option String) (bd : String) (st : St) (v : JsVal)
    (hre : Reachable st)
    (ha : parseBearer (auth.getD "") = some DEMO_BEARER)
    (hparse : parseJson bd = some v)
    (ht : jsTruthy (getField v "title") = true)
    (hau : jsTruthy (getField v "author") = true) :
    (handle t0 t1 rand ⟨Method.POST, "/books", q, auth, ck, bd, false⟩ st).1.status = 201 ∧
    getField (handle t0 t1 rand ⟨Method.POST, "/books", q, auth, ck, bd, false⟩ st).1.body
        "data" =
      bookToJs { id := st.nextId, title := jsToString (getField v "title"),
                 author := jsToString (getField v "author") } ∧
    (∀ (t0' t1' : Nat) (rand' p2 ds2 : String) (q2 : List (String × String))
       (auth2 ck2 : Option String) (bd2 : String) (be2 : Bool),
       idArgOf p2 = some ds2 → digitsToInt ds2 = st.nextId →
       (handle t0' t1' rand' ⟨Method.GET, p2, q2, auth2, ck2, bd2, be2⟩
          (handle t0 t1 rand ⟨Method.POST, "/books", q, auth, ck, bd, false⟩ st).2).1.status
         = 200 ∧
       getField (handle t0' t1' rand' ⟨Method.GET, p2, q2, auth2, ck2, bd2, be2⟩
          (handle t0 t1 rand ⟨Method.POST, "/books", q, auth, ck, bd, false⟩ st).2).1.body
           "data" =
         bookToJs { id := st.nextId, title := jsToString (getField v "title"),
                    author := jsToString (getField v "author") }) ∧
    (∀ (t0' t1' : Nat) (rand' : String) (q3 : List (String × String)) (ck3 : Option String)
       (bd3 : String) (be3 : Bool),
       (handle t0' t1' rand' ⟨Method.POST, "/books", q3, none, ck3, bd3, be3⟩ st).1.status
         = 401) := by
  have hinv := reachable_inv st hre
  have hbd : bd ≠ "" := by
    intro h0
    rw [h0] at hparse
    exact absurd hparse (by rw [show parseJson "" = none from rfl]; simp)
  have hraw : bodyValOf ⟨Method.POST, "/books", q, auth, ck, bd, false⟩ = v := by
    simp [bodyValOf, hbd, hparse]
  have hvt : jsTruthy v = true := truthy_of_field v "title" ht
  have hcheck : ¬(¬jsTruthy (bodyValOf ⟨Method.POST, "/books", q, auth, ck, bd, false⟩) = true ∨
      ¬jsTruthy (getField (bodyValOf ⟨Method.POST, "/books", q, auth, ck, bd, false⟩) "title")
        = true ∨
      ¬jsTruthy (getField (bodyValOf ⟨Method.POST, "/books", q, auth, ck, bd, false⟩) "author")
        = true) := by
    rw [hraw]
    push_neg
    exact ⟨hvt, ht, hau⟩
  have hrt : routeTry ⟨Method.POST, "/books", q, auth, ck, bd, false⟩ (parseCookies ck) rand st =
      .ok (sendJSON (setH corsHeaders "Set-Cookie" ("sessionId=" ++ rand ++ "; HttpOnly; Path=/"))
             201 (.vObj [("data", bookToJs { id := st.nextId, title := jsToString (getField v "title"), author := jsToString (getField v "author") })]),
           { books := st.books ++ [{ id := st.nextId, title := jsToString (getField v "title"), author := jsToString (getField v "author") }], nextId := st.nextId + 1 }) := by
    simp only [routeTry, routeMut]
    rw [if_neg (fun h => absurd h.1 (by decide))]
    rw [if_neg (by decide : ¬(Method.POST = Method.GET))]
    rw [if_neg (fun h => h.2.2 ha)]
    split
    · simp only [postBooks, readBody_noErr ⟨Method.POST, "/books", q, auth, ck, bd, false⟩ rfl]
      split
      · next hcon => exact (hcheck hcon).elim
      · rw [hraw]
    · next hcon => exact absurd (by simp) hcon
  obtain ⟨h1, h2, h3, _⟩ := handle_ok t0 t1 rand ⟨Method.POST, "/books", q, auth, ck, bd, false⟩
    st _ _ (by simp) hrt
  refine ⟨by rw [h1]; rfl, by rw [h2]; rfl, ?_, ?_⟩
  · intro t0' t1' rand' p2 ds2 q2 auth2 ck2 bd2 be2 hid2 hds2
    have hfind : ((handle t0 t1 rand ⟨Method.POST, "/books", q, auth, ck, bd, false⟩ st).2.books).find?
        (fun b => b.id == digitsToInt ds2) =
        some { id := st.nextId, title := jsToString (getField v "title"), author := jsToString (getField v "author") } := by
      rw [h3]
      rw [hds2]
      exact find?_append_fresh st.books _ st.nextId rfl
        (fun x hx => ne_of_lt (hinv.2 x hx))
    have hrt2 : routeTry ⟨Method.GET, p2, q2, auth2, ck2, bd2, be2⟩ (parseCookies ck2) rand'
        (handle t0 t1 rand ⟨Method.POST, "/books", q, auth, ck, bd, false⟩ st).2 =
        .ok (sendJSON (setH corsHeaders "X-Server-Note" "served-by-node-http") 200
              (.vObj [("data", bookToJs { id := st.nextId, title := jsToString (getField v "title"), author := jsToString (getField v "author") }),
                ("cookies", .vObj ((parseCookies ck2).map fun pr => (pr.1, JsVal.vStr pr.2)))]),
             (handle t0 t1 rand ⟨Method.POST, "/books", q, auth, ck, bd, false⟩ st).2) := by
      simp only [routeTry]
      rw [if_neg (fun hc => by rw [hc.2] at hid2; simp [idArgOf, bookMatch] at hid2)]
      split
      · simp only [hid2, getOneBook, hfind]
      · next hcon => exact absurd (by simp) hcon
    obtain ⟨h1', h2', _, _⟩ := handle_ok t0' t1' rand' ⟨Method.GET, p2, q2, auth2, ck2, bd2, be2⟩
      _ _ _ (by simp) hrt2
    exact ⟨by rw [h1']; rfl, by rw [h2']; rfl⟩
  · intro t0' t1' rand' q3 ck3 bd3 be3
    exact (auth_gate_401 t0' t1' rand' "/books" Method.POST q3 none ck3 bd3 be3 st rfl rfl
      (by rw [show parseBearer ((none : Option String).getD "") = none from rfl]; simp)).1

/-- C7 witness: the concrete POST of `{"title":"T","author":"A"}` on
the seeded store answers 201 with id 4, the GET of `/books/4` on the
new state answers 200 with that record, and the unauthorized POST
answers 401. -/
theorem c7_witness :
    (handle 0 0 "r" ⟨Method.POST, "/books", [], some "Bearer secret-token-123", none,
      "\x7b\"title\":\"T\",\"author\":\"A\"\x7d", false⟩ initSt).1.status = 201 ∧
    (handle 0 0 "g" ⟨Method.GET, "/books/4", [], none, none, "", false⟩
      (handle 0 0 "r" ⟨Method.POST, "/books", [], some "Bearer secret-token-123", none,
        "\x7b\"title\":\"T\",\"author\":\"A\"\x7d", false⟩ initSt).2).1.status = 200 ∧
    getField (handle 0 0 "g" ⟨Method.GET, "/books/4", [], none, none, "", false⟩
      (handle 0 0 "r" ⟨Method.POST, "/books", [], some "Bearer secret-token-123", none,
        "\x7b\"title\":\"T\",\"author\":\"A\"\x7d", false⟩ initSt).2).1.body "data" =
      bookToJs { id := 4, title := "T", author := "A" } ∧
    (handle 0 0 "r" ⟨Method.POST, "/books", [], none, none,
      "\x7b\"title\":\"T\",\"author\":\"A\"\x7d", false⟩ initSt).1.status = 401 := by
  obtain ⟨h1, _, h3, h4⟩ := c7_post_then_get 0 0 "r" [] (some "Bearer secret-token-123") none
    "\x7b\"title\":\"T\",\"author\":\"A\"\x7d" initSt (.vObj [("title", .vStr "T"), ("author", .vStr "A")])
    Reachable.seed rfl rfl rfl rfl
  obtain ⟨hg1, hg2⟩ := h3 0 0 "g" "/books/4" "4" [] none none "" false rfl rfl
  exact ⟨h1, hg1, hg2.trans rfl, h4 0 0 "r" [] none "\x7b\"title\":\"T\",\"author\":\"A\"\x7d" false⟩

-- --- C8: delete then fetch ---

/-- C8: when a DELETE of `/books/:id` on a reachable state succeeds
(status 200) returning record `b`, the collection loses exactly that
one record — it splits as `bs1 ++ b :: bs2` before and `bs1 ++ bs2`
after, with the counter unchanged — the removed record carries the
path id, and every subsequent GET of `/books/:id` for the same id on
the new state answers 404. -/
theorem c8_delete_then_get (t0 t1 : Nat) (rand p ds : String) (q : List (String × String))
    (auth ck : Option String) (bd : String) (be : Bool) (st : St) (b : Book)
    (hre : Reachable st)
    (hid : idArgOf p = some ds)
    (h200 : (handle t0 t1 rand ⟨Method.DELETE, p, q, auth, ck, bd, be⟩ st).1.status = 200)
    (hdata : getField (handle t0 t1 rand ⟨Method.DELETE, p, q, auth, ck, bd, be⟩ st).1.body
      "data" = bookToJs b) :
    (∃ bs1 bs2, st.books = bs1 ++ b :: bs2 ∧
       (handle t0 t1 rand ⟨Method.DELETE, p, q, auth, ck, bd, be⟩ st).2 =
         { books := bs1 ++ bs2, nextId := st.nextId }) ∧
    b.id = digitsToInt ds ∧
    (∀ (t0' t1' : Nat) (rand' p2 ds2 : String) (q2 : List (String × String))
       (auth2 ck2 : Option String) (bd2 : String) (be2 : Bool),
       idArgOf p2 = some ds2 → digitsToInt ds2 = digitsToInt ds →
       (handle t0' t1' rand' ⟨Method.GET, p2, q2, auth2, ck2, bd2, be2⟩
          (handle t0 t1 rand ⟨Method.DELETE, p, q, auth, ck, bd, be⟩ st).2).1.status = 404) := by
  have hinv := reachable_inv st hre
  rcases handle_split t0 t1 rand ⟨Method.DELETE, p, q, auth, ck, bd, be⟩ st with
    ⟨_, _, hne⟩ | ⟨r, hrt, hs, hb⟩
  · exact absurd h200 hne
  · rw [routeTry_eq_routeMut _ _ rand st (by intro hc; cases hc)] at hrt
    obtain ⟨removed, bs1, bs2, h1, h2, hbody, hfr, ds', hds', hid'⟩ :=
      routeMut_delete200 _ rand st _ rfl hrt (by rw [← hs]; exact h200)
    have hds : ds' = ds := Option.some.inj ((hds'.symm).trans hid)
    have hbrem : b = removed := by
      apply bookToJs_inj
      rw [← hdata, hb]
      exact hbody
    have hst' : (handle t0 t1 rand ⟨Method.DELETE, p, q, auth, ck, bd, be⟩ st).2 =
        { books := bs1 ++ bs2, nextId := st.nextId } := h2
    have hnomem : ∀ x ∈ bs1 ++ bs2, x.id ≠ removed.id := by
      have hnod := hinv.1
      rw [h1] at hnod
      simp only [List.map_append, List.map_cons] at hnod
      have := (List.nodup_middle.mp hnod)
      rw [List.nodup_cons] at this
      intro x hx hxid
      apply this.1
      rw [← List.map_append]
      rw [← hxid]
      exact List.mem_map_of_mem Book.id hx
    refine ⟨⟨bs1, bs2, by rw [hbrem, h1], hst'⟩, by rw [hbrem, hid', hds], ?_⟩
    intro t0' t1' rand' p2 ds2 q2 auth2 ck2 bd2 be2 hid2 hds2
    have hfind : ((handle t0 t1 rand ⟨Method.DELETE, p, q, auth, ck, bd, be⟩ st).2.books).find?
        (fun x => x.id == digitsToInt ds2) = none := by
      rw [hst']
      rw [List.find?_eq_none]
      intro x hx
      simp only [beq_iff_eq]
      rw [hds2, ← hds, ← hid']
      exact hnomem x hx
    have hrt2 : routeTry ⟨Method.GET, p2, q2, auth2, ck2, bd2, be2⟩ (parseCookies ck2) rand'
        (handle t0 t1 rand ⟨Method.DELETE, p, q, auth, ck, bd, be⟩ st).2 =
        .ok (sendJSON corsHeaders 404 (errObj "Not found"),
             (handle t0 t1 rand ⟨Method.DELETE, p, q, auth, ck, bd, be⟩ st).2) := by
      simp only [routeTry]
      rw [if_neg (fun hc => by rw [hc.2] at hid2; simp [idArgOf, bookMatch] at hid2)]
      split
      · simp only [hid2, getOneBook, hfind]
      · next hcon => exact absurd (by simp) hcon
    obtain ⟨h1', _, _, _⟩ := handle_ok t0' t1' rand' ⟨Method.GET, p2, q2, auth2, ck2, bd2, be2⟩
      _ _ _ (by simp) hrt2
    rw [h1']
    rfl

/-- C8 witness: the concrete DELETE of `/books/2` on the seeded store
answers 200, and the subsequent GET of `/books/2` on the resulting
state answers 404. -/
theorem c8_witness :
    (handle 0 0 "r" ⟨Method.DELETE, "/books/2", [], some "Bearer secret-token-123", none, "",
      false⟩ initSt).1.status = 200 ∧
    (handle 0 0 "g" ⟨Method.GET, "/books/2", [], none, none, "", false⟩
      (handle 0 0 "r" ⟨Method.DELETE, "/books/2", [], some "Bearer secret-token-123", none, "",
        false⟩ initSt).2).1.status = 404 := by
  obtain ⟨_, _, hget⟩ := c8_delete_then_get 0 0 "r" "/books/2" "2" []
    (some "Bearer secret-token-123") none "" false initSt
    { id := 2, title := "You Don\x27t Know JS", author := "Kyle Simpson" }
    Reachable.seed rfl rfl rfl
  exact ⟨rfl, hget 0 0 "g" "/books/2" "2" [] none none "" false rfl rfl⟩

end BooksApi
